import Mathlib

/-!
# gomulocity: paging helper, struct-to-map marshalling, resource clients

A shallow embedding of `generic/paging.go`, `generic/jsonc_marshal.go`,
`device_bootstrap/deviceRegistrationApi.go` and `events/events.go`, followed by
the theorems about them.

Conventions of the embedding:

* a Go `string` is a Lean `String`; where Go works on the bytes of a string
  (`len`, `sort.Strings`, `url.QueryEscape`) the model goes through the UTF-8
  bytes of the string (`goBytes`);
* a Go `int` is an `Int` (no arithmetic is done on it, only comparisons);
* a Go `map[string]T` is an association list (`GoMap`), read through `lookup`
  (the first binding of a key is the binding) and written through `store`;
* a call that may panic returns an `Outcome` / `Option`, the panic being a
  separate result from a returned `error`.
-/

namespace Gomulocity

/-! ## Go strings -/

/-- The UTF-8 encoding of one character, as the bytes Go stores for it. -/
def utf8Bytes (c : Char) : List Nat :=
  let v := c.toNat
  if v < 0x80 then [v]
  else if v < 0x800 then [0xC0 + v / 64, 0x80 + v % 64]
  else if v < 0x10000 then [0xE0 + v / 4096, 0x80 + v / 64 % 64, 0x80 + v % 64]
  else [0xF0 + v / 262144, 0x80 + v / 4096 % 64, 0x80 + v / 64 % 64, 0x80 + v % 64]

/-- The bytes of a Go string. -/
def goBytes (s : String) : List Nat := s.data.flatMap utf8Bytes

/-- Go `len(s)` for a string: its number of bytes. -/
def goLen (s : String) : Nat := (goBytes s).length

/-- Go `strings.Contains(s, sub)`. -/
def strContains (s sub : String) : Prop := sub.data <:+: s.data

instance (s sub : String) : Decidable (strContains s sub) := by
  unfold strContains; infer_instance

/-- Go `a < b` on the bytes of two strings (the order `sort.Strings` uses). -/
def bytesLess : List Nat → List Nat → Bool
  | _, [] => false
  | [], _ :: _ => true
  | a :: as, b :: bs => decide (a < b) || (a == b && bytesLess as bs)

/-- Go `a < b` on strings. -/
def stringLess (a b : String) : Bool := bytesLess (goBytes a) (goBytes b)

/-- Insertion of a key into an ascending list of keys. -/
def insertSorted (k : String) : List String → List String
  | [] => [k]
  | x :: xs => if stringLess k x then k :: x :: xs else x :: insertSorted k xs

/-- Go `sort.Strings(keys)`. -/
def sortStrings : List String → List String
  | [] => []
  | k :: ks => insertSorted k (sortStrings ks)

/-- Go `strconv.Itoa(i)`, also the rendering of `%d`: the decimal digits of
`i`, after a minus sign when `i` is negative. -/
def Itoa (i : Int) : String :=
  if i < 0 then "-" ++ Nat.repr (-i).toNat else Nat.repr i.toNat

/-! ## Go maps with string keys -/

/-- A Go `map[string]α`: the bindings of the map; the first binding of a key is
the one the map holds. -/
abbrev GoMap (α : Type) := List (String × α)

/-- Go `v, ok := m[k]`. -/
def GoMap.lookup {α : Type} (m : GoMap α) (k : String) : Option α :=
  match m with
  | [] => none
  | (k', v) :: rest => if k' = k then some v else GoMap.lookup rest k

/-- Go `m[k] = v`. -/
def GoMap.store {α : Type} (m : GoMap α) (k : String) (v : α) : GoMap α :=
  match m with
  | [] => [(k, v)]
  | (k', v') :: rest => if k' = k then (k, v) :: rest else (k', v') :: GoMap.store rest k v

/-- The keys `for k := range m` visits, each once. -/
def GoMap.keys {α : Type} (m : GoMap α) : List String := (m.map Prod.fst).dedup

/-! ## net/url: query escaping and `url.Values` -/

/-- The `shouldEscape(c, encodeQueryComponent)` of net/url: letters, digits and
`-`, `_`, `.`, `~` are kept, every other byte is escaped. -/
def shouldEscape (c : Nat) : Bool :=
  if (97 ≤ c ∧ c ≤ 122) ∨ (65 ≤ c ∧ c ≤ 90) ∨ (48 ≤ c ∧ c ≤ 57) then false
  else if c = 45 ∨ c = 95 ∨ c = 46 ∨ c = 126 then false
  else true

/-- The digit `upperhex[n]` of net/url. -/
def upperhex (n : Nat) : Char := "0123456789ABCDEF".data.getD n '0'

/-- What `escape(s, encodeQueryComponent)` writes for one byte of `s`. -/
def escapeByte (c : Nat) : List Char :=
  if c = 32 then ['+']
  else if shouldEscape c then ['%', upperhex (c / 16), upperhex (c % 16)]
  else [Char.ofNat c]

/-- Go `url.QueryEscape(s)`. -/
def QueryEscape (s : String) : String := String.mk ((goBytes s).flatMap escapeByte)

/-- A character that `url.QueryEscape` copies unchanged. -/
def keptByEscape (c : Char) : Prop := (utf8Bytes c).flatMap escapeByte = [c]

/-- Go `url.Values`, a `map[string][]string` (here: a non-nil one). -/
abbrev Values := GoMap (List String)

/-- Go `v[key]` on a `url.Values`: the value list, nil (empty) for an absent key. -/
def Values.get (v : Values) (key : String) : List String := (GoMap.lookup v key).getD []

/-- Go `func (v Values) Add(key, value string)`: `v[key] = append(v[key], value)`. -/
def Values.Add (v : Values) (key value : String) : Values :=
  GoMap.store v key (Values.get v key ++ [value])

/-- The inner loop of `Values.Encode`: one `key=value` pair for every value of
a key, a `&` in front of it when the buffer already holds something. -/
def encodeValues (keyEscaped : String) (buf : String) : List String → String
  | [] => buf
  | v :: vs =>
    encodeValues keyEscaped
      ((if goLen buf > 0 then buf ++ "&" else buf) ++ keyEscaped ++ "=" ++ QueryEscape v) vs

/-- The outer loop of `Values.Encode`, over the sorted keys. -/
def encodeKeys (v : Values) (buf : String) : List String → String
  | [] => buf
  | k :: ks => encodeKeys v (encodeValues (QueryEscape k) buf (Values.get v k)) ks

/-- Go `func (v Values) Encode() string`: the pairs `key=value`, escaped, joined
by `&`, the keys in sorted order. -/
def Values.Encode (v : Values) : String :=
  if v.length = 0 then "" else encodeKeys v "" (sortStrings (GoMap.keys v))

/-! ## generic/paging.go -/

/-- What the argument `params *url.Values` of `PageSizeParameter` can be. -/
inductive ValuesPtr where
  /-- The nil pointer. -/
  | nilPtr
  /-- A pointer to a `url.Values` variable that holds the nil map. -/
  | toNilMap
  /-- A pointer to a `url.Values` variable that holds the map `v`. -/
  | toMap (v : Values)
deriving DecidableEq

/-- The function `PageSizeParameter(pageSize, params)` of generic/paging.go.
The result is `none` when the call panics (`Add` on a nil map), and otherwise
the state of `params` after the call together with the returned `error`
(`none` for a nil error). -/
def PageSizeParameter (pageSize : Int) (params : ValuesPtr) : Option (ValuesPtr × Option String) :=
  if pageSize < 1 ∨ pageSize > 2000 then
    some (params, some ("The page size must be between 1 and 2000. Was " ++ Itoa pageSize))
  else
    match params with
    | .nilPtr => some (.nilPtr, some "The provided parameter values must not be nil!")
    | .toNilMap => none
    | .toMap v => some (.toMap (Values.Add v "pageSize" (Itoa pageSize)), none)

/-! ## reflect: struct fields, values, kinds -/

/-- A call that returns a value, returns an `error`, or panics. -/
inductive Outcome (α : Type) where
  /-- The call returns its result and a nil error. -/
  | ok (a : α)
  /-- The call returns the error with this message (and no result). -/
  | error (msg : String)
  /-- The call panics. -/
  | panic

/-- Sequencing of two calls: the second runs on the result of the first, an
error or a panic of the first ends the run. -/
def Outcome.bind {α β : Type} (x : Outcome α) (f : α → Outcome β) : Outcome β :=
  match x with
  | .ok a => f a
  | .error msg => .error msg
  | .panic => .panic

/-- One parsed struct tag: the name in front of the first comma, and whether
the option `omitempty` follows. -/
structure JsonTag where
  /-- The name part of the tag. -/
  Name : String
  /-- Whether the tag carries `omitempty`. -/
  OmitEmpty : Bool
deriving DecidableEq

/-- A `reflect.StructField`, as far as the marshaller looks at it: the name of
the field, whether it is exported, and its `json` and `jsonc` tags (absent tags
are `none`). -/
structure StructField where
  /-- The Go name of the field. -/
  Name : String
  /-- Whether the field is exported (`PkgPath == ""`). -/
  exported : Bool
  /-- The `json:"..."` tag of the field. -/
  jsonTag : Option JsonTag
  /-- The `jsonc:"..."` tag of the field. -/
  jsoncTag : Option JsonTag
deriving DecidableEq

/-- Modelled from the spec: `getJsonTag(field, key)` is not among the sources;
per the tag resolver of the spec it hands back the parsed tag of the namespace
`key` (`json`: rename and omit-empty, `jsonc`: structural directive) and nil
when the field has no tag in that namespace. In the structural namespace a
directive outside the recognized set (`flat`, `collection`) resolves like no
directive: nil. -/
def getJsonTag (fieldType : StructField) (key : String) : Option JsonTag :=
  if key = "json" then fieldType.jsonTag
  else if key = "jsonc" then
    match fieldType.jsoncTag with
    | none => none
    | some tag => if tag.Name = "flat" ∨ tag.Name = "collection" then some tag else none
  else none

/-- A Go value as reflection sees it. Integers of every width are `int`;
kinds the marshaller never looks into (floats, complex numbers, channels,
functions, unsafe pointers) are `other`, which carries the answer of
`reflect.Value.IsZero`. The entries of a map are the pairs of
`iter.Key().String()` and `iter.Value()` in the order `MapRange` yields them. -/
inductive Value where
  | bool (b : Bool)
  | int (n : Int)
  | str (s : String)
  | nilSlice
  | slice (elems : List Value)
  | array (elems : List Value)
  | nilMap
  | map (entries : List (String × Value))
  | nilPtr
  | ptr (target : Value)
  | nilIface
  | iface (dyn : Value)
  | struct (fields : List (StructField × Value))
  | other (isZero : Bool)

/-- The kinds of `reflect.Kind` the model tells apart. -/
inductive Kind where
  | Bool | Int | String | Slice | Array | Map | Ptr | Interface | Struct | Other
deriving DecidableEq

/-- Go `v.Kind()`. -/
def Value.Kind : Value → Kind
  | .bool _ => .Bool
  | .int _ => .Int
  | .str _ => .String
  | .nilSlice => .Slice
  | .slice _ => .Slice
  | .array _ => .Array
  | .nilMap => .Map
  | .map _ => .Map
  | .nilPtr => .Ptr
  | .ptr _ => .Ptr
  | .nilIface => .Interface
  | .iface _ => .Interface
  | .struct _ => .Struct
  | .other _ => .Other

/-- Go `v.Len()` on an array, map, slice or string (the only kinds it is called
on; on the others reflect panics and the model says 0). -/
def Value.Len : Value → Nat
  | .str s => goLen s
  | .slice elems => elems.length
  | .array elems => elems.length
  | .map entries => entries.length
  | _ => 0

/-- Go `v.IsValid()`: every value met here comes from `Field`, `Index`,
`MapRange` or `reflect.ValueOf`, and is valid. -/
def Value.IsValid (_ : Value) : Bool := true

mutual
/-- Go `v.IsZero()`. -/
def Value.IsZero : Value → Bool
  | .bool b => !b
  | .int n => n == 0
  | .str s => goLen s == 0
  | .nilSlice => true
  | .slice _ => false
  | .array elems => allZero elems
  | .nilMap => true
  | .map _ => false
  | .nilPtr => true
  | .ptr _ => false
  | .nilIface => true
  | .iface _ => false
  | .struct fields => allFieldsZero fields
  | .other isZero => isZero
/-- Whether every element of an array is zero. -/
def allZero : List Value → Bool
  | [] => true
  | v :: vs => v.IsZero && allZero vs
/-- Whether every field of a struct is zero. -/
def allFieldsZero : List (StructField × Value) → Bool
  | [] => true
  | (_, v) :: fs => v.IsZero && allFieldsZero fs
end

/-- Go `v.Interface()` on a `reflect.Value` whose read-only flag is `ro` (set
when the value was reached through an unexported field): a panic (`none`) on a
read-only value, else the Go value, which for a value of interface kind is the
value the interface holds. -/
def Value.Interface (ro : Bool) (v : Value) : Option Value :=
  if ro then none
  else
    match v with
    | .iface dyn => some dyn
    | x => some x

/-! ## generic/jsonc_marshal.go -/

/-- The function `isEmptyValue(v)`. -/
def isEmptyValue (v : Value) : Bool :=
  match v.Kind with
  | .Array => v.Len == 0
  | .Map => v.Len == 0
  | .Slice => v.Len == 0
  | .String => v.Len == 0
  | _ => !v.IsValid || v.IsZero

/-- The function `insertTaggedFieldIntoMap(targetMapPtr, fieldType, fieldValue)`;
`ro` is the read-only flag of `fieldValue`. The result is the target map after
the call, `none` when the call panics. -/
def insertTaggedFieldIntoMap (targetMap : GoMap Value) (fieldType : StructField)
    (ro : Bool) (fieldValue : Value) : Option (GoMap Value) :=
  match getJsonTag fieldType "json" with
  | none => (fieldValue.Interface ro).map (fun x => GoMap.store targetMap fieldType.Name x)
  | some tag =>
    if tag.Name = "-" then some targetMap
    else if tag.OmitEmpty && isEmptyValue fieldValue then some targetMap
    else (fieldValue.Interface ro).map (fun x => GoMap.store targetMap tag.Name x)

/-- The loop `for iter.Next() { targetMap[iter.Key().String()] = iter.Value().Interface() }`
of `insertReflectMapIntoMap`. -/
def flatEntries (ro : Bool) (targetMap : GoMap Value) : List (String × Value) → Option (GoMap Value)
  | [] => some targetMap
  | (k, v) :: rest =>
    match v.Interface ro with
    | none => none
    | some x => flatEntries ro (GoMap.store targetMap k x) rest

/-- The function `insertReflectMapIntoMap(targetMapPtr, fieldValue)`; `ro` is the
read-only flag of `fieldValue`. -/
def insertReflectMapIntoMap (targetMap : GoMap Value) (ro : Bool) (fieldValue : Value) :
    Outcome (GoMap Value) :=
  match fieldValue with
  | .nilMap => .ok targetMap
  | .map entries =>
    match flatEntries ro targetMap entries with
    | none => .panic
    | some m => .ok m
  | _ => .error "is not a map"

/-- The value `reflect.ValueOf(slice)` of `handleCollection`, for the slice of
item maps it has built. -/
def sliceOfMaps (maps : List (GoMap Value)) : Value := .slice (maps.map Value.map)

mutual
/-- The function `mapFromStruct(structValue)`; `ro` is the read-only flag of
`structValue`. `NumField` panics on anything but a struct. -/
def mapFromStruct (ro : Bool) : Value → Outcome (GoMap Value)
  | .struct fields => mapFields ro [] fields
  | _ => .panic
/-- The loop of `mapFromStruct` over the fields that are left, `targetMap`
holding what the fields before them have inserted. -/
def mapFields (ro : Bool) (targetMap : GoMap Value) :
    List (StructField × Value) → Outcome (GoMap Value)
  | [] => .ok targetMap
  | (fieldType, fieldValue) :: rest =>
    match getJsonTag fieldType "jsonc" with
    | none =>
      match insertTaggedFieldIntoMap targetMap fieldType (ro || !fieldType.exported) fieldValue with
      | none => .panic
      | some m => mapFields ro m rest
    | some jsonCTag =>
      if jsonCTag.Name = "flat" then
        match insertReflectMapIntoMap targetMap (ro || !fieldType.exported) fieldValue with
        | .ok m => mapFields ro m rest
        | .error err => .error ("error: on collection " ++ fieldType.Name ++ ": " ++ err)
        | .panic => .panic
      else if jsonCTag.Name = "collection" then
        match handleCollection targetMap fieldType (ro || !fieldType.exported) fieldValue with
        | .ok m => mapFields ro m rest
        | .error err => .error ("error: on collection " ++ fieldType.Name ++ ": " ++ err)
        | .panic => .panic
      else mapFields ro targetMap rest
/-- The function `handleCollection(targetMapPtr, fieldType, fieldValue)`; `ro` is
the read-only flag of `fieldValue`. -/
def handleCollection (targetMap : GoMap Value) (fieldType : StructField) (ro : Bool) :
    Value → Outcome (GoMap Value)
  | .nilSlice =>
    match insertTaggedFieldIntoMap targetMap fieldType false (sliceOfMaps []) with
    | none => .panic
    | some m => .ok m
  | .slice elems =>
    match collectionItems ro 0 elems with
    | .ok maps =>
      match insertTaggedFieldIntoMap targetMap fieldType false (sliceOfMaps maps) with
      | none => .panic
      | some m => .ok m
    | .error err => .error err
    | .panic => .panic
  | _ => .error "is not a slice"
/-- The loop of `handleCollection` over the items from index `i` on: the maps
of the items, or the error of the first item that fails. -/
def collectionItems (ro : Bool) (i : Nat) : List Value → Outcome (List (GoMap Value))
  | [] => .ok []
  | structItem :: rest =>
    match mapFromStruct ro structItem with
    | .ok mapItem =>
      match collectionItems ro (i + 1) rest with
      | .ok maps => .ok (mapItem :: maps)
      | .error err => .error err
      | .panic => .panic
    | .error err => .error ("error: Can not convert item " ++ Itoa i ++ ": " ++ err)
    | .panic => .panic
end

/-- Modelled from the spec: `pointerOfStruct` is not among the sources; per the
spec the input must be a reference to a structured object, and anything else
is refused. -/
def pointerOfStruct (o : Value) : Option Value :=
  match o with
  | .ptr (.struct fields) => some (.struct fields)
  | _ => none

/-- The function `JsonFromObject(o)`; `marshal` stands for `json.Marshal` on the
map. -/
def JsonFromObject (marshal : GoMap Value → Except String String) (o : Value) : Outcome String :=
  match pointerOfStruct o with
  | none => .error "input is not a pointer of struct"
  | some structValue =>
    match mapFromStruct false structValue with
    | .ok mapValue =>
      match marshal mapValue with
      | .ok j => .ok j
      | .error err => .error err
    | .error err => .error err
    | .panic => .panic

/-- The zero/default values the spec lists for omit-empty: the empty string,
an empty slice, map or array, a zero number, false, a nil reference. -/
def isZeroDefault : Value → Bool
  | .str s => decide (s = "")
  | .nilSlice => true
  | .slice elems => elems.isEmpty
  | .array elems => elems.isEmpty
  | .nilMap => true
  | .map entries => entries.isEmpty
  | .int n => decide (n = 0)
  | .bool b => !b
  | .nilPtr => true
  | .nilIface => true
  | .other isZero => isZero
  | _ => false

/-- The output key of a field: the name of its `json` tag, the Go name of the
field when it has no `json` tag. -/
def outputKey (fieldType : StructField) : String :=
  match getJsonTag fieldType "json" with
  | none => fieldType.Name
  | some tag => tag.Name

/-! ## HTTP transport -/

/-- The header sets the clients send, as built by `generic.EmptyHeader`,
`generic.AcceptHeader` and `generic.AcceptAndContentTypeHeader`. -/
inductive Headers where
  | empty
  | accept (accept : String)
  | acceptAndContentType (accept contentType : String)
deriving DecidableEq

/-- One request handed to the HTTP client. -/
structure Request where
  /-- The HTTP method. -/
  method : String
  /-- Path and query of the request. -/
  path : String
  /-- The request body (empty for GET and DELETE). -/
  body : String
  /-- The headers set by the caller. -/
  headers : Headers
deriving DecidableEq

/-- What the HTTP client returns: `(body, status, err)`. -/
structure Response where
  /-- The response body. -/
  body : String
  /-- The HTTP status code. -/
  status : Int
  /-- The transport error, `none` for nil. -/
  err : Option String
deriving DecidableEq

/-- The result of a client operation together with the requests it has issued,
in order. -/
structure Call (α : Type) where
  /-- The requests handed to the HTTP client. -/
  requests : List Request
  /-- The values the operation returns. -/
  result : α

/-- The Go constant `http.StatusOK`. -/
def StatusOK : Int := 200
/-- The Go constant `http.StatusCreated`. -/
def StatusCreated : Int := 201
/-- The Go constant `http.StatusNoContent`. -/
def StatusNoContent : Int := 204
/-- The Go constant `http.StatusNotFound`. -/
def StatusNotFound : Int := 404

/-- The two parts of a parsed URL the clients read: `Path` and `RawQuery`. -/
structure ParsedUrl where
  /-- The field `Path` of `url.URL`. -/
  Path : String
  /-- The field `RawQuery` of `url.URL`. -/
  RawQuery : String
deriving DecidableEq

/-! ## device_bootstrap/deviceRegistrationApi.go -/

/-- Modelled from the spec: `generic.Error` is not among the sources; per the
spec a client error is a local failure with a message and the tag of the
failing operation, a server error carries the `error` and `message` fields of
the response body and the HTTP status. -/
inductive GenericError where
  | client (message info : String)
  | server (error message : String) (status : Int)
deriving DecidableEq

/-- Modelled from the spec: `generic.ClientError(message, info)` is not among the
sources; it builds the error of a local failure. -/
def ClientError (message info : String) : Option GenericError := some (.client message info)

/-- Modelled from the spec: `generic.CreateErrorFromResponse(body, status)` is not
among the sources; per the error response parser of the spec it always
produces a structured error, with the `error` and `message` fields of the body
(`errorFields body`, both empty for a malformed or empty body) and the status. -/
def CreateErrorFromResponse (errorFields : String → String × String) (body : String)
    (status : Int) : Option GenericError :=
  some (.server (errorFields body).1 (errorFields body).2 status)

/-- Modelled from the spec: the type `DeviceRegistration` is not among the
sources; the entity has an `id` and a `status` (omitted from JSON when empty). -/
structure DeviceRegistration where
  /-- The device id. -/
  Id : String
  /-- The registration status, empty for the default. -/
  Status : String
deriving DecidableEq

/-- Modelled from the spec: the type `DeviceRegistrationCollection` is not among
the sources; the pagination envelope holds the cursor links and the page. -/
structure DeviceRegistrationCollection where
  /-- The link to the next page, empty when there is none. -/
  Next : String
  /-- The link to the previous page, empty when there is none. -/
  Prev : String
  /-- The registrations of the page. -/
  DeviceRegistrations : List DeviceRegistration
deriving DecidableEq

/-- The struct `deviceRegistrationApi` with what its methods use from outside
this file: the HTTP client, the constants of the package, `encoding/json` and
`url.Parse`. -/
structure deviceRegistrationApi where
  /-- The methods `Get`, `Post`, `Put`, `Delete` of `generic.Client`. -/
  client : Request → Response
  /-- The field `basePath` (`DEVICE_REGISTRATION_API_PATH`). -/
  basePath : String
  /-- The constant `DEVICE_REGISTRATION_TYPE`. -/
  DEVICE_REGISTRATION_TYPE : String
  /-- The constant `DEVICE_REGISTRATION_COLLECTION_TYPE`. -/
  DEVICE_REGISTRATION_COLLECTION_TYPE : String
  /-- Go `json.Marshal` on a `DeviceRegistration`. -/
  marshal : DeviceRegistration → Except String String
  /-- Go `json.Unmarshal` into a `DeviceRegistration`. -/
  unmarshal : String → Except String DeviceRegistration
  /-- Go `json.Unmarshal` into a `DeviceRegistrationCollection`. -/
  unmarshalCollection : String → Except String DeviceRegistrationCollection
  /-- Go `url.Parse`, `none` when it returns an error. -/
  parseUrl : String → Option ParsedUrl
  /-- The `error` and `message` fields `generic.CreateErrorFromResponse` reads. -/
  errorFields : String → String × String

/-- The function `parseDeviceRegistrationResponse(body)`. -/
def parseDeviceRegistrationResponse (api : deviceRegistrationApi) (body : String) :
    Option DeviceRegistration × Option GenericError :=
  if goLen body > 0 then
    match api.unmarshal body with
    | .error err => (none, ClientError ("Error while parsing response JSON: " ++ err) "ResponseParser")
    | .ok result => (some result, none)
  else (none, ClientError "Response body was empty" "GetDeviceRegistration")

/-- The method `Create(deviceId)`. -/
def deviceRegistrationApi.Create (api : deviceRegistrationApi) (deviceId : String) :
    Call (Option DeviceRegistration × Option GenericError) :=
  match api.marshal ⟨deviceId, ""⟩ with
  | .error err =>
    ⟨[], (none, ClientError ("Error while marshalling the deviceRegistration: " ++ err)
      "CreateDeviceRegistration")⟩
  | .ok bytes =>
    let req : Request := ⟨"POST", api.basePath, bytes,
      .acceptAndContentType api.DEVICE_REGISTRATION_TYPE api.DEVICE_REGISTRATION_TYPE⟩
    let resp := api.client req
    ⟨[req],
      match resp.err with
      | some err => (none, ClientError ("Error while posting a new deviceRegistration: " ++ err)
          "CreateDeviceRegistration")
      | none =>
        if resp.status ≠ StatusCreated then
          (none, CreateErrorFromResponse api.errorFields resp.body resp.status)
        else parseDeviceRegistrationResponse api resp.body⟩

/-- The method `Get(deviceId)`. -/
def deviceRegistrationApi.Get (api : deviceRegistrationApi) (deviceId : String) :
    Call (Option DeviceRegistration × Option GenericError) :=
  if goLen deviceId = 0 then
    ⟨[], (none, ClientError "Getting deviceRegistration without an id is not allowed"
      "GetDeviceRegistration")⟩
  else
    let path := api.basePath ++ "/" ++ QueryEscape deviceId
    let req : Request := ⟨"GET", path, "", .accept api.DEVICE_REGISTRATION_TYPE⟩
    let resp := api.client req
    ⟨[req],
      match resp.err with
      | some err => (none, ClientError ("Error while getting a deviceRegistration: " ++ err)
          "GetDeviceRegistration")
      | none =>
        if resp.status = StatusNotFound then (none, none)
        else if resp.status ≠ StatusOK then
          (none, CreateErrorFromResponse api.errorFields resp.body resp.status)
        else parseDeviceRegistrationResponse api resp.body⟩

/-- The method `getCommon(path)`. -/
def deviceRegistrationApi.getCommon (api : deviceRegistrationApi) (path : String) :
    Call (Option DeviceRegistrationCollection × Option GenericError) :=
  let req : Request := ⟨"GET", path, "", .accept api.DEVICE_REGISTRATION_COLLECTION_TYPE⟩
  let resp := api.client req
  ⟨[req],
    match resp.err with
    | some err => (none, ClientError ("Error while getting deviceRegistrations: " ++ err)
        "GetDeviceRegistrationCollection")
    | none =>
      if resp.status ≠ StatusOK then
        (none, CreateErrorFromResponse api.errorFields resp.body resp.status)
      else if goLen resp.body > 0 then
        match api.unmarshalCollection resp.body with
        | .error err => (none, ClientError ("Error while parsing response JSON: " ++ err)
            "GetDeviceRegistrationCollection")
        | .ok result => (some result, none)
      else (none, ClientError "Response body was empty" "GetDeviceRegistrationCollection")⟩

/-- The method `GetAll(pageSize)`. The parameter set is a fresh `&url.Values{}`,
on which `PageSizeParameter` cannot panic. -/
def deviceRegistrationApi.GetAll (api : deviceRegistrationApi) (pageSize : Int) :
    Call (Option DeviceRegistrationCollection × Option GenericError) :=
  match PageSizeParameter pageSize (.toMap []) with
  | some (.toMap pageSizeParams, none) =>
    api.getCommon (api.basePath ++ "?" ++ Values.Encode pageSizeParams)
  | some (_, some err) =>
    ⟨[], (none, ClientError
      ("Error while building pageSize parameter to fetch deviceRegistrations: " ++ err)
      "GetAllDeviceRegistrations")⟩
  | _ => ⟨[], (none, none)⟩

/-- The method `Update(deviceId, newStatus)`. -/
def deviceRegistrationApi.Update (api : deviceRegistrationApi) (deviceId newStatus : String) :
    Call (Option DeviceRegistration × Option GenericError) :=
  if goLen deviceId = 0 then
    ⟨[], (none, ClientError "Updating a deviceRegistration without an id is not allowed"
      "UpdateDeviceRegistration")⟩
  else
    match api.marshal ⟨"", newStatus⟩ with
    | .error err =>
      ⟨[], (none, ClientError ("Error while marshalling the update deviceRegistration: " ++ err)
        "UpdateDeviceRegistration")⟩
    | .ok bytes =>
      let path := api.basePath ++ "/" ++ QueryEscape deviceId
      let req : Request := ⟨"PUT", path, bytes,
        .acceptAndContentType api.DEVICE_REGISTRATION_TYPE api.DEVICE_REGISTRATION_TYPE⟩
      let resp := api.client req
      ⟨[req],
        match resp.err with
        | some err => (none, ClientError ("Error while updating a deviceRegistration: " ++ err)
            "UpdateDeviceRegistration")
        | none =>
          if resp.status ≠ StatusOK then
            (none, CreateErrorFromResponse api.errorFields resp.body resp.status)
          else parseDeviceRegistrationResponse api resp.body⟩

/-- The method `Delete(deviceId)`. -/
def deviceRegistrationApi.Delete (api : deviceRegistrationApi) (deviceId : String) :
    Call (Option GenericError) :=
  if goLen deviceId = 0 then
    ⟨[], ClientError "Deleting deviceRegistrations without an id is not allowed"
      "DeleteDeviceRegistration"⟩
  else
    let path := api.basePath ++ "/" ++ QueryEscape deviceId
    let req : Request := ⟨"DELETE", path, "", .empty⟩
    let resp := api.client req
    ⟨[req],
      match resp.err with
      | some err => ClientError ("Error while deleting a deviceRegistration with id "
          ++ deviceId ++ ": " ++ err) "DeleteDeviceRegistration"
      | none =>
        if resp.status ≠ StatusNoContent then
          CreateErrorFromResponse api.errorFields resp.body resp.status
        else none⟩

/-- The method `getPage(reference)`. -/
def deviceRegistrationApi.getPage (api : deviceRegistrationApi) (reference : String) :
    Call (Option DeviceRegistrationCollection × Option GenericError) :=
  if reference = "" then ⟨[], (none, none)⟩
  else
    match api.parseUrl reference with
    | none =>
      ⟨[], (none, ClientError ("Unparsable URL given for page reference: \x27" ++ reference ++ "\x27")
        "GetPage")⟩
    | some nextUrl =>
      let call := api.getCommon (nextUrl.Path ++ "?" ++ nextUrl.RawQuery)
      match call.result with
      | (_, some err2) => ⟨call.requests, (none, some err2)⟩
      | (none, none) => ⟨call.requests, (none, none)⟩
      | (some collection, none) =>
        if collection.DeviceRegistrations.length = 0 then ⟨call.requests, (none, none)⟩
        else ⟨call.requests, (some collection, none)⟩

/-- The method `NextPage(c)`, for a non-nil `c`. -/
def deviceRegistrationApi.NextPage (api : deviceRegistrationApi)
    (c : DeviceRegistrationCollection) :
    Call (Option DeviceRegistrationCollection × Option GenericError) :=
  api.getPage c.Next

/-- The method `PreviousPage(c)`, for a non-nil `c`. -/
def deviceRegistrationApi.PreviousPage (api : deviceRegistrationApi)
    (c : DeviceRegistrationCollection) :
    Call (Option DeviceRegistrationCollection × Option GenericError) :=
  api.getPage c.Prev

/-! ## events/events.go -/

/-- Modelled from the spec: the type `EventCollection` is not among the sources;
the pagination envelope holds the cursor links and the events of the page
(`Event` is the entity type, also absent). -/
structure EventCollection (Event : Type) where
  /-- The link to the next page, empty when there is none. -/
  Next : String
  /-- The link to the previous page, empty when there is none. -/
  Prev : String
  /-- The events of the page. -/
  Events : List Event

/-- The struct `EventQuery`; `Time` stands for `time.Time`. -/
structure EventQuery (Time : Type) where
  /-- The lower bound on the event time, `none` for nil. -/
  DateFrom : Option Time
  /-- The upper bound on the event time, `none` for nil. -/
  DateTo : Option Time
  /-- The fragment type to look for. -/
  FragmentType : String
  /-- The event type to look for (the field `Type`). -/
  EventType : String
  /-- The source device to look for. -/
  Source : String

/-- The method `QueryParams()` of `EventQuery`; `formatRFC3339 t` stands for
`t.Format(time.RFC3339)`. -/
def EventQuery.QueryParams {Time : Type} (formatRFC3339 : Time → String) (q : EventQuery Time) :
    String :=
  let params : Values := []
  let params := match q.DateFrom with
    | some t => Values.Add params "dateFrom" (formatRFC3339 t)
    | none => params
  let params := match q.DateTo with
    | some t => Values.Add params "dateTo" (formatRFC3339 t)
    | none => params
  let params := if goLen q.FragmentType > 0 then Values.Add params "fragmentType" q.FragmentType
    else params
  let params := if goLen q.EventType > 0 then Values.Add params "type" q.EventType else params
  let params := if goLen q.Source > 0 then Values.Add params "source" q.Source else params
  Values.Encode params

/-- The struct `events` with what its methods use from outside this file: the
HTTP client of the package, `encoding/json`, `fmt`, `time` and `url.Parse`.
`Event`, `CreateEvent` and `UpdateEvent` are the entity types of the package. -/
structure events (Event CreateEvent UpdateEvent Time : Type) where
  /-- The methods `get`, `post`, `put`, `delete` of the package's `Client`. -/
  client : Request → Response
  /-- The field `basePath` (`/event/events`). -/
  basePath : String
  /-- Go `json.Marshal` on a `CreateEvent` (its error is only logged). -/
  marshalCreate : CreateEvent → String
  /-- Go `json.Marshal` on an `UpdateEvent` (its error is only logged). -/
  marshalUpdate : UpdateEvent → String
  /-- Go `json.Unmarshal` into an `Event`. -/
  unmarshal : String → Except String Event
  /-- Go `json.Unmarshal` into an `EventCollection`. -/
  unmarshalCollection : String → Except String (EventCollection Event)
  /-- Go `url.Parse`, `none` when it returns an error. -/
  parseUrl : String → Option ParsedUrl
  /-- The rendering under `%s` of `msg[key]` once `json.Unmarshal(body, &msg)` has
  run, as `createErrorFromResponse` prints it. -/
  fmtField : String → String → String
  /-- Go `t.Format(time.RFC3339)`. -/
  formatRFC3339 : Time → String

/-- The function `createErrorFromResponse(responseBody)` of the events package. -/
def createErrorFromResponse (fmtField : String → String → String) (responseBody : String) :
    Option String :=
  some ("Request failed. Server returns error: \x7b" ++ fmtField responseBody "error" ++ ": "
    ++ fmtField responseBody "message" ++ "\x7d")

section EventsApi

variable {Ev CEv UEv Tm : Type}

/-- The method `CreateEvent(event)`. -/
def events.CreateEvent (e : events Ev CEv UEv Tm) (event : CEv) :
    Call (Option String) :=
  let bytes := e.marshalCreate event
  let req : Request := ⟨"POST", e.basePath, bytes, .empty⟩
  let resp := e.client req
  ⟨[req],
    match resp.err with
    | some err => some err
    | none =>
      if resp.status ≠ StatusCreated then createErrorFromResponse e.fmtField resp.body
      else none⟩

/-- The method `UpdateEvent(eventId, event)`. -/
def events.UpdateEvent (e : events Ev CEv UEv Tm) (eventId : String)
    (event : UEv) : Call (Option String) :=
  let bytes := e.marshalUpdate event
  let path := e.basePath ++ "/" ++ QueryEscape eventId
  let req : Request := ⟨"PUT", path, bytes, .empty⟩
  let resp := e.client req
  ⟨[req],
    if resp.status ≠ StatusOK then createErrorFromResponse e.fmtField resp.body
    else resp.err⟩

/-- The method `DeleteEvent(eventId)`. -/
def events.DeleteEvent (e : events Ev CEv UEv Tm) (eventId : String) :
    Call (Option String) :=
  let req : Request := ⟨"DELETE", e.basePath ++ "/" ++ QueryEscape eventId, "", .empty⟩
  let resp := e.client req
  ⟨[req],
    if resp.status ≠ StatusNoContent then createErrorFromResponse e.fmtField resp.body
    else resp.err⟩

/-- The method `Get(eventId)`. -/
def events.Get (e : events Ev CEv UEv Tm) (eventId : String) :
    Call (Option Ev × Option String) :=
  let req : Request := ⟨"GET", e.basePath ++ "/" ++ QueryEscape eventId, "", .empty⟩
  let resp := e.client req
  ⟨[req],
    if resp.status ≠ StatusOK then (none, none)
    else if goLen resp.body > 0 then
      match e.unmarshal resp.body with
      | .error err => (none, some err)
      | .ok result => (some result, none)
    else (none, some "GetEvent: response body was empty")⟩

/-- The method `getCommon(path)`. -/
def events.getCommon (e : events Ev CEv UEv Tm) (path : String) :
    Call (Option (EventCollection Ev) × Option String) :=
  let req : Request := ⟨"GET", path, "", .empty⟩
  let resp := e.client req
  ⟨[req],
    if resp.status ≠ StatusOK then (none, createErrorFromResponse e.fmtField resp.body)
    else if goLen resp.body > 0 then
      match e.unmarshalCollection resp.body with
      | .error err => (none, some err)
      | .ok result => (some result, none)
    else (none, some "GetCollection: response body was empty")⟩

/-- The method `Find(query)`. -/
def events.Find (e : events Ev CEv UEv Tm) (query : EventQuery Tm) :
    Call (Option (EventCollection Ev) × Option String) :=
  e.getCommon (e.basePath ++ "?" ++ query.QueryParams e.formatRFC3339)

/-- The method `GetForDevice(source)`. -/
def events.GetForDevice (e : events Ev CEv UEv Tm) (source : String) :
    Call (Option (EventCollection Ev) × Option String) :=
  e.Find ⟨none, none, "", "", source⟩

/-- The method `getPage(reference)`. -/
def events.getPage (e : events Ev CEv UEv Tm) (reference : String) :
    Call (Option (EventCollection Ev) × Option String) :=
  if reference = "" then ⟨[], (none, none)⟩
  else
    match e.parseUrl reference with
    | none =>
      ⟨[], (none, some ("Unparsable URL given for page reference: \x27" ++ reference ++ "\x27"))⟩
    | some nextUrl => e.getCommon (nextUrl.Path ++ "?" ++ nextUrl.RawQuery)

/-- The method `NextPage(c)`, for a non-nil `c`. -/
def events.NextPage (e : events Ev CEv UEv Tm) (c : EventCollection Ev) :
    Call (Option (EventCollection Ev) × Option String) :=
  e.getPage c.Next

/-- The method `PreviousPage(c)`, for a non-nil `c`. -/
def events.PreviousPage (e : events Ev CEv UEv Tm)
    (c : EventCollection Ev) : Call (Option (EventCollection Ev) × Option String) :=
  e.getPage c.Prev

end EventsApi

/-! ## Example objects -/

/-- A field without tags. -/
def plainField (name : String) : StructField := ⟨name, true, none, none⟩

/-- A field with a `json` tag only. -/
def jsonField (name jsonName : String) (omitEmpty : Bool) : StructField :=
  ⟨name, true, some ⟨jsonName, omitEmpty⟩, none⟩

/-- The field `Items []Item` tagged `json:"items,omitempty" jsonc:"collection"`. -/
def itemsField : StructField := ⟨"Items", true, some ⟨"items", true⟩, some ⟨"collection", false⟩⟩

/-- The field `Extra map[string]interface{}` tagged `jsonc:"flat"`. -/
def extraField : StructField := ⟨"Extra", true, none, some ⟨"flat", false⟩⟩

/-- An item struct with the single field `A`. -/
def itemStruct (a : Int) : Value := .struct [(plainField "A", .int a)]

/-- The link to a second page of events used in the examples. -/
def examplePageLink : String := "https://t1.example.com/event/events?pageSize=5&currentPage=2"

/-- What `url.Parse` makes of the example link (an error stands for every other input). -/
def exampleParseUrl (reference : String) : Option ParsedUrl :=
  if reference = examplePageLink then some ⟨"/event/events", "pageSize=5&currentPage=2"⟩
  else none

/-- An error body and a page without elements, as the server sends them. -/
def exampleErrorBody : String := "\x7b\"error\":\"undefined\",\"message\":\"boom\"\x7d"

/-- A well-formed page of events without elements. -/
def exampleEmptyEvents : String := "\x7b\"events\":[]\x7d"

/-- A well-formed page of device registrations without elements. -/
def exampleEmptyRegistrations : String := "\x7b\"newDeviceRequests\":[]\x7d"

/-- The `error` and `message` fields of the example error body. -/
def exampleErrorFields (body : String) : String × String :=
  if body = exampleErrorBody then ("undefined", "boom") else ("", "")

/-- A device registration client over the transport `client`; the decoders know
the example bodies. -/
def exampleDeviceApi (client : Request → Response) : deviceRegistrationApi where
  client := client
  basePath := "/devicecontrol/newDeviceRequests"
  DEVICE_REGISTRATION_TYPE := "application/vnd.com.nsn.cumulocity.newDeviceRequest+json"
  DEVICE_REGISTRATION_COLLECTION_TYPE :=
    "application/vnd.com.nsn.cumulocity.newDeviceRequestCollection+json"
  marshal := fun r => .ok r.Id
  unmarshal := fun body => .ok ⟨body, ""⟩
  unmarshalCollection := fun body =>
    if body = exampleEmptyRegistrations then .ok ⟨"", "", []⟩ else .error "invalid character"
  parseUrl := exampleParseUrl
  errorFields := exampleErrorFields

/-- An events client over the transport `client`, events being their ids; the
decoders know the example bodies. -/
def exampleEvents (client : Request → Response) : events String String String String where
  client := client
  basePath := "/event/events"
  marshalCreate := fun ev => ev
  marshalUpdate := fun ev => ev
  unmarshal := fun body => .ok body
  unmarshalCollection := fun body =>
    if body = exampleEmptyEvents then .ok ⟨"", "", []⟩ else .error "invalid character"
  parseUrl := exampleParseUrl
  fmtField := fun body key => if key = "error" then (exampleErrorFields body).1
    else (exampleErrorFields body).2
  formatRFC3339 := fun t => t

/-! # Theorems -/

/-! ## Lemmas on Go maps -/

theorem GoMap.lookup_store {α : Type} (m : GoMap α) (k k' : String) (v : α) :
    GoMap.lookup (GoMap.store m k v) k' = if k' = k then some v else GoMap.lookup m k' := by
  induction m with
  | nil =>
    by_cases h : k = k'
    · subst h; simp [GoMap.store, GoMap.lookup]
    · have h' : ¬ k' = k := fun e => h e.symm
      simp [GoMap.store, GoMap.lookup, h, h']
  | cons b rest ih =>
    obtain ⟨kb, vb⟩ := b
    by_cases hb : kb = k
    · subst hb
      by_cases h : kb = k'
      · subst h; simp [GoMap.store, GoMap.lookup]
      · have h' : ¬ k' = kb := fun e => h e.symm
        simp [GoMap.store, GoMap.lookup, h, h']
    · by_cases h : kb = k'
      · subst h
        simp [GoMap.store, GoMap.lookup, hb]
      · simp [GoMap.store, GoMap.lookup, hb, h, ih]

theorem GoMap.lookup_store_same {α : Type} (m : GoMap α) (k : String) (v : α) :
    GoMap.lookup (GoMap.store m k v) k = some v := by
  simp [GoMap.lookup_store]

theorem GoMap.lookup_store_other {α : Type} (m : GoMap α) (k k' : String) (v : α)
    (h : k' ≠ k) : GoMap.lookup (GoMap.store m k v) k' = GoMap.lookup m k' := by
  simp [GoMap.lookup_store, h]

theorem GoMap.mem_keys_store {α : Type} (m : GoMap α) (k : String) (v : α) :
    k ∈ GoMap.keys (GoMap.store m k v) := by
  induction m with
  | nil => simp [GoMap.store, GoMap.keys]
  | cons b rest ih =>
    obtain ⟨kb, vb⟩ := b
    by_cases hb : kb = k
    · simp [GoMap.store, GoMap.keys, hb]
    · simp only [GoMap.keys, List.mem_dedup] at ih ⊢
      simp only [GoMap.store, hb, if_false, List.map_cons, List.mem_cons]
      exact Or.inr ih

theorem GoMap.store_ne_nil {α : Type} (m : GoMap α) (k : String) (v : α) :
    GoMap.store m k v ≠ [] := by
  cases m with
  | nil => simp [GoMap.store]
  | cons b rest =>
    obtain ⟨kb, vb⟩ := b
    by_cases hb : kb = k <;> simp [GoMap.store, hb]

/-! ## Lemmas on sorting and encoding -/

theorem mem_insertSorted (k x : String) (l : List String) :
    x ∈ insertSorted k l ↔ x = k ∨ x ∈ l := by
  induction l with
  | nil => simp [insertSorted]
  | cons y ys ih =>
    cases h : stringLess k y with
    | true => simp [insertSorted, h]
    | false =>
      simp only [insertSorted, h, Bool.false_eq_true, if_false, List.mem_cons, ih]
      tauto

theorem mem_sortStrings (x : String) (l : List String) : x ∈ sortStrings l ↔ x ∈ l := by
  induction l with
  | nil => simp [sortStrings]
  | cons y ys ih => simp [sortStrings, mem_insertSorted, ih]

theorem encodeValues_extends (ke : String) (vs : List String) (buf : String) :
    buf.data <+: (encodeValues ke buf vs).data := by
  induction vs generalizing buf with
  | nil => exact List.prefix_refl _
  | cons v vs ih =>
    refine List.IsPrefix.trans ?_ (ih _)
    by_cases h : goLen buf > 0
    · simp only [h, if_true, String.data_append, List.append_assoc]
      exact List.prefix_append _ _
    · simp only [h, if_false, String.data_append, List.append_assoc]
      exact List.prefix_append _ _

theorem encodeValues_contains (ke x : String) (vs : List String) (buf : String)
    (hx : x ∈ vs) : strContains (encodeValues ke buf vs) (ke ++ "=" ++ QueryEscape x) := by
  induction vs generalizing buf with
  | nil => cases hx
  | cons v vs ih =>
    rcases List.mem_cons.mp hx with h | h
    · subst h
      refine List.IsInfix.trans ?_ (encodeValues_extends ke vs _).isInfix
      simp only [String.data_append, List.append_assoc]
      exact (List.suffix_append _ _).isInfix
    · exact ih _ h

theorem encodeKeys_extends (v : Values) (ks : List String) (buf : String) :
    buf.data <+: (encodeKeys v buf ks).data := by
  induction ks generalizing buf with
  | nil => exact List.prefix_refl _
  | cons k ks ih => exact List.IsPrefix.trans (encodeValues_extends _ _ _) (ih _)

theorem encodeKeys_contains (v : Values) (k x : String) (ks : List String) (buf : String)
    (hk : k ∈ ks) (hx : x ∈ Values.get v k) :
    strContains (encodeKeys v buf ks) (QueryEscape k ++ "=" ++ QueryEscape x) := by
  induction ks generalizing buf with
  | nil => cases hk
  | cons k' ks ih =>
    rcases List.mem_cons.mp hk with h | h
    · subst h
      exact List.IsInfix.trans (encodeValues_contains _ _ _ _ hx) (encodeKeys_extends v ks _).isInfix
    · exact ih _ h

/-- Every pair of a key of the map and one of its values is in the encoded string. -/
theorem Values.Encode_contains (v : Values) (k x : String)
    (hk : k ∈ GoMap.keys v) (hx : x ∈ Values.get v k) :
    strContains (Values.Encode v) (QueryEscape k ++ "=" ++ QueryEscape x) := by
  have hne : v.length ≠ 0 := by
    intro h
    have : v = [] := List.length_eq_zero.mp h
    subst this
    simp [GoMap.keys] at hk
  simp only [Values.Encode, hne, if_false]
  exact encodeKeys_contains v k x _ "" ((mem_sortStrings _ _).mpr hk) hx

theorem QueryEscape_of_kept (s : String) (h : ∀ c ∈ s.data, keptByEscape c) :
    QueryEscape s = s := by
  obtain ⟨l⟩ := s
  simp only [QueryEscape, goBytes]
  congr 1
  induction l with
  | nil => rfl
  | cons c cs ih =>
    have hc : keptByEscape c := h c (List.mem_cons_self _ _)
    have hcs : ∀ d ∈ cs, keptByEscape d := fun d hd => h d (List.mem_cons_of_mem _ hd)
    simp only [List.flatMap_cons, List.flatMap_append]
    rw [ih hcs]
    unfold keptByEscape at hc
    rw [hc]
    rfl

theorem keptByEscape_digitChar (d : Nat) (h : d < 10) : keptByEscape (Nat.digitChar d) := by
  unfold keptByEscape
  interval_cases d <;> decide

theorem toDigitsCore_kept (fuel : Nat) : ∀ (n : Nat) (ds : List Char),
    (∀ c ∈ ds, keptByEscape c) → ∀ c ∈ Nat.toDigitsCore 10 fuel n ds, keptByEscape c := by
  induction fuel with
  | zero => intro n ds h; simpa [Nat.toDigitsCore] using h
  | succ f ih =>
    intro n ds h
    have hd : keptByEscape (Nat.digitChar (n % 10)) :=
      keptByEscape_digitChar _ (Nat.mod_lt _ (by decide))
    have hds : ∀ c ∈ Nat.digitChar (n % 10) :: ds, keptByEscape c := by
      intro c hc
      rcases List.mem_cons.mp hc with e | e
      · rw [e]; exact hd
      · exact h c e
    simp only [Nat.toDigitsCore]
    split
    · exact hds
    · exact ih _ _ hds

/-- The decimal rendering of a number that is not negative is left as it is by
`url.QueryEscape`. -/
theorem QueryEscape_Itoa (n : Int) (h : 0 ≤ n) : QueryEscape (Itoa n) = Itoa n := by
  apply QueryEscape_of_kept
  have hn : ¬ n < 0 := not_lt.mpr h
  simp only [Itoa, hn, if_false, Nat.repr, Nat.toDigits, List.asString]
  exact toDigitsCore_kept _ _ _ (by simp)

/-! ## generic/paging.go: `PageSizeParameter` -/

/-- C1: for every integer `n` and every non-nil parameter set `p` (a non-nil
pointer to a non-nil `url.Values`), `PageSizeParameter(n, p)` returns, and it
returns a nil error if and only if `1 <= n <= 2000`. -/
theorem PageSizeParameter_no_error_iff (n : Int) (p : Values) :
    (∃ r, PageSizeParameter n (.toMap p) = some r) ∧
    ((∃ st, PageSizeParameter n (.toMap p) = some (st, none)) ↔ (1 ≤ n ∧ n ≤ 2000)) := by
  by_cases h : n < 1 ∨ n > 2000
  · refine ⟨⟨_, by simp only [PageSizeParameter, h, if_true]; rfl⟩, ?_⟩
    constructor
    · rintro ⟨st, hst⟩
      simp [PageSizeParameter, h] at hst
    · rintro ⟨h1, h2⟩
      omega
  · refine ⟨⟨_, by simp only [PageSizeParameter, h, if_false]; rfl⟩, ?_⟩
    constructor
    · intro _
      omega
    · intro _
      exact ⟨_, by simp only [PageSizeParameter, h, if_false]; rfl⟩

theorem goLen_eq_zero_iff (s : String) : goLen s = 0 ↔ s = "" := by
  obtain ⟨l⟩ := s
  cases l with
  | nil => simp [goLen, goBytes]
  | cons c cs =>
    have hc : utf8Bytes c ≠ [] := by
      unfold utf8Bytes
      simp only
      split_ifs <;> simp
    constructor
    · intro h
      simp only [goLen, goBytes, List.flatMap_cons, List.length_append] at h
      have : (utf8Bytes c).length = 0 := by omega
      exact absurd (List.length_eq_zero.mp this) hc
    · intro h
      exact absurd (congrArg String.data h) (by simp)

theorem mapFields_cons (ro : Bool) (m : GoMap Value) (f : StructField × Value)
    (rest : List (StructField × Value)) :
    mapFields ro m (f :: rest) = (mapFields ro m [f]).bind (fun m1 => mapFields ro m1 rest) := by
  obtain ⟨fieldType, fieldValue⟩ := f
  simp only [mapFields]
  cases getJsonTag fieldType "jsonc" with
  | none =>
    simp only
    cases insertTaggedFieldIntoMap m fieldType (ro || !fieldType.exported) fieldValue <;>
      simp [Outcome.bind, mapFields]
  | some jsonCTag =>
    simp only
    split_ifs
    · cases insertReflectMapIntoMap m (ro || !fieldType.exported) fieldValue <;>
        simp [Outcome.bind, mapFields]
    · cases handleCollection m fieldType (ro || !fieldType.exported) fieldValue <;>
        simp [Outcome.bind, mapFields]
    · simp [Outcome.bind, mapFields]

theorem mapFields_append (ro : Bool) (pre post : List (StructField × Value)) (m : GoMap Value) :
    mapFields ro m (pre ++ post)
      = (mapFields ro m pre).bind (fun m1 => mapFields ro m1 post) := by
  induction pre generalizing m with
  | nil => simp [mapFields, Outcome.bind]
  | cons f rest ih =>
    rw [List.cons_append, mapFields_cons, mapFields_cons ro m f rest]
    cases h : mapFields ro m [f] with
    | ok m1 => simp only [Outcome.bind]; exact ih m1
    | error msg => simp [Outcome.bind]
    | panic => simp [Outcome.bind]

/-- A run over `pre ++ f :: post` that succeeds passes through the map after
`pre` and the map after `f`. -/
theorem mapFields_split (ro : Bool) (pre post : List (StructField × Value))
    (f : StructField × Value) (m0 m : GoMap Value)
    (h : mapFields ro m0 (pre ++ f :: post) = .ok m) :
    ∃ m1 m2, mapFields ro m0 pre = .ok m1 ∧ mapFields ro m1 [f] = .ok m2 ∧
      mapFields ro m2 post = .ok m := by
  rw [mapFields_append] at h
  cases h1 : mapFields ro m0 pre with
  | ok m1 =>
    rw [h1] at h
    simp only [Outcome.bind] at h
    rw [mapFields_cons] at h
    cases h2 : mapFields ro m1 [f] with
    | ok m2 =>
      rw [h2] at h
      simp only [Outcome.bind] at h
      exact ⟨m1, m2, rfl, h2, h⟩
    | error msg => rw [h2] at h; simp [Outcome.bind] at h
    | panic => rw [h2] at h; simp [Outcome.bind] at h
  | error msg => rw [h1] at h; simp [Outcome.bind] at h
  | panic => rw [h1] at h; simp [Outcome.bind] at h

theorem mapFields_join (ro : Bool) (pre post : List (StructField × Value))
    (f : StructField × Value) (m0 m1 m2 : GoMap Value)
    (h1 : mapFields ro m0 pre = .ok m1) (h2 : mapFields ro m1 [f] = .ok m2) :
    mapFields ro m0 (pre ++ f :: post) = mapFields ro m2 post := by
  rw [mapFields_append, h1]
  simp only [Outcome.bind]
  rw [mapFields_cons, h2]
  simp only [Outcome.bind]

theorem isEmptyValue_of_isZeroDefault (v : Value) (h : isZeroDefault v = true) :
    isEmptyValue v = true := by
  cases v with
  | str s =>
    have hs : s = "" := by simpa [isZeroDefault] using h
    subst hs
    rfl
  | slice elems => cases elems <;> simp_all [isZeroDefault, isEmptyValue, Value.Kind, Value.Len]
  | array elems => cases elems <;> simp_all [isZeroDefault, isEmptyValue, Value.Kind, Value.Len]
  | map entries => cases entries <;> simp_all [isZeroDefault, isEmptyValue, Value.Kind, Value.Len]
  | int n =>
    have hn : n = 0 := by simpa [isZeroDefault] using h
    subst hn
    rfl
  | bool b => cases b <;> simp_all [isZeroDefault, isEmptyValue, Value.Kind, Value.IsZero, Value.IsValid]
  | other z => cases z <;> simp_all [isZeroDefault, isEmptyValue, Value.Kind, Value.IsZero, Value.IsValid]
  | nilSlice => rfl
  | nilMap => rfl
  | nilPtr => rfl
  | nilIface => rfl
  | ptr t => simp [isZeroDefault] at h
  | iface d => simp [isZeroDefault] at h
  | struct fs => simp [isZeroDefault] at h

/-- An omit-empty field with an empty value is skipped by
`insertTaggedFieldIntoMap`, whatever the read-only flag. -/
theorem insertTaggedFieldIntoMap_omitted (m : GoMap Value) (fieldType : StructField)
    (tag : JsonTag) (ro : Bool) (v : Value)
    (htag : getJsonTag fieldType "json" = some tag) (homit : tag.OmitEmpty = true)
    (hempty : isEmptyValue v = true) :
    insertTaggedFieldIntoMap m fieldType ro v = some m := by
  simp only [insertTaggedFieldIntoMap, htag, homit, hempty, Bool.and_self, if_true]
  split_ifs <;> rfl

/-- Processing an omit-empty field that holds a zero/default value leaves the
target map as it is (when it does not fail). -/
theorem mapFields_omitEmpty_zero (ro : Bool) (m0 m1 : GoMap Value) (fieldType : StructField)
    (tag : JsonTag) (fieldValue : Value)
    (htag : getJsonTag fieldType "json" = some tag) (homit : tag.OmitEmpty = true)
    (hzero : isZeroDefault fieldValue = true)
    (h : mapFields ro m0 [(fieldType, fieldValue)] = .ok m1) : m1 = m0 := by
  have hempty := isEmptyValue_of_isZeroDefault fieldValue hzero
  simp only [mapFields] at h
  cases hc : getJsonTag fieldType "jsonc" with
  | none =>
    rw [hc] at h
    simp only [insertTaggedFieldIntoMap_omitted m0 fieldType tag _ fieldValue htag homit hempty,
      Outcome.ok.injEq] at h
    exact h.symm
  | some jsonCTag =>
    rw [hc] at h
    simp only at h
    split_ifs at h with hflat hcoll
    · cases fieldValue with
      | nilMap => simp [insertReflectMapIntoMap] at h; exact h.symm
      | map entries =>
        cases entries with
        | nil => simp [insertReflectMapIntoMap, flatEntries] at h; exact h.symm
        | cons e es => simp [isZeroDefault] at hzero
      | _ => simp [insertReflectMapIntoMap] at h
    · have hs : isEmptyValue (sliceOfMaps []) = true := rfl
      cases fieldValue with
      | nilSlice =>
        simp [handleCollection,
          insertTaggedFieldIntoMap_omitted m0 fieldType tag false _ htag homit hs] at h
        exact h.symm
      | slice elems =>
        cases elems with
        | nil =>
          simp [handleCollection, collectionItems,
            insertTaggedFieldIntoMap_omitted m0 fieldType tag false _ htag homit hs] at h
          exact h.symm
        | cons e es => simp [isZeroDefault] at hzero
      | _ => simp [handleCollection] at h
    · simp only [Outcome.ok.injEq] at h
      exact h.symm

/-! ## generic/jsonc_marshal.go: the claims -/

/-- C3, as the code has it: a field marked omit-empty that holds a zero/default
value (empty string, empty slice, map or array, zero number, false, nil
reference) adds nothing to the output map. When `mapFromStruct` succeeds on
the object, it succeeds with the same map on the object without that field, so
the map holds the field's output key only where another field or a flattened
entry writes that key. -/
theorem mapFromStruct_omitEmpty_zero_adds_nothing (ro : Bool)
    (pre post : List (StructField × Value)) (fieldType : StructField) (tag : JsonTag)
    (fieldValue : Value) (m : GoMap Value)
    (htag : getJsonTag fieldType "json" = some tag) (homit : tag.OmitEmpty = true)
    (hzero : isZeroDefault fieldValue = true)
    (hok : mapFromStruct ro (.struct (pre ++ (fieldType, fieldValue) :: post)) = .ok m) :
    mapFromStruct ro (.struct (pre ++ post)) = .ok m ∧
    (∀ key, GoMap.lookup m key = none ↔
      ∀ m2, mapFromStruct ro (.struct (pre ++ post)) = .ok m2 → GoMap.lookup m2 key = none) := by
  simp only [mapFromStruct] at hok ⊢
  obtain ⟨m1, m2, h1, h2, h3⟩ := mapFields_split ro pre post _ [] m hok
  have heq := mapFields_omitEmpty_zero ro m1 m2 fieldType tag fieldValue htag homit hzero h2
  subst heq
  have hres : mapFields ro [] (pre ++ post) = .ok m := by
    rw [mapFields_append, h1]
    simpa [Outcome.bind] using h3
  refine ⟨hres, ?_⟩
  intro key
  constructor
  · intro hk m2 hm2
    rw [hres] at hm2
    cases hm2
    exact hk
  · intro hk
    exact hk m hres

/-- The statement of C3 on a struct with an omit-empty `Status` that is empty
between two fields that are kept. -/
theorem mapFromStruct_omitEmpty_zero_adds_nothing_witness :
    (getJsonTag ⟨"Status", true, some ⟨"status", true⟩, none⟩ "json" = some ⟨"status", true⟩ ∧
      (⟨"status", true⟩ : JsonTag).OmitEmpty = true ∧
      isZeroDefault (.str "") = true ∧
      mapFromStruct false (.struct ([(⟨"Id", true, some ⟨"id", false⟩, none⟩, .str "abc123")] ++
          (⟨"Status", true, some ⟨"status", true⟩, none⟩, .str "") ::
          [(⟨"Owner", true, none, none⟩, .str "me")]))
        = .ok [("id", .str "abc123"), ("Owner", .str "me")]) ∧
    (mapFromStruct false (.struct ([(⟨"Id", true, some ⟨"id", false⟩, none⟩, .str "abc123")] ++
        [(⟨"Owner", true, none, none⟩, .str "me")]))
      = .ok [("id", .str "abc123"), ("Owner", .str "me")] ∧
    (∀ key, GoMap.lookup [("id", Value.str "abc123"), ("Owner", Value.str "me")] key = none ↔
      ∀ m2, mapFromStruct false (.struct ([(⟨"Id", true, some ⟨"id", false⟩, none⟩, .str "abc123")]
        ++ [(⟨"Owner", true, none, none⟩, .str "me")])) = .ok m2 → GoMap.lookup m2 key = none)) :=
  ⟨⟨rfl, rfl, rfl, rfl⟩,
    mapFromStruct_omitEmpty_zero_adds_nothing false
      [(⟨"Id", true, some ⟨"id", false⟩, none⟩, .str "abc123")]
      [(⟨"Owner", true, none, none⟩, .str "me")]
      ⟨"Status", true, some ⟨"status", true⟩, none⟩ ⟨"status", true⟩ (.str "")
      [("id", .str "abc123"), ("Owner", .str "me")] rfl rfl rfl rfl⟩

/-- C3 as stated fails: `Status` is omit-empty and empty, and the output map
still holds its key `status`, written by the flattened map of `Extra`. -/
theorem mapFromStruct_omitEmpty_key_present :
    isZeroDefault (.str "") = true ∧
    mapFromStruct false (.struct
      [(⟨"Status", true, some ⟨"status", true⟩, none⟩, .str ""),
       (⟨"Extra", true, none, some ⟨"flat", false⟩⟩, .map [("status", .iface (.str "x"))])])
      = .ok [("status", .str "x")] ∧
    GoMap.lookup [("status", Value.str "x")] "status" = some (.str "x") :=
  ⟨rfl, rfl, rfl⟩

theorem insertReflectMapIntoMap_non_map (m : GoMap Value) (ro : Bool) (v : Value)
    (hkind : v.Kind ≠ .Map) : insertReflectMapIntoMap m ro v = .error "is not a map" := by
  cases v <;> first | rfl | exact absurd rfl hkind

/-- The loop stops with the flatten error at a `flat` field that holds no map. -/
theorem mapFields_flat_non_map (ro : Bool) (m0 : GoMap Value) (fieldType : StructField)
    (ctag : JsonTag) (fieldValue : Value) (post : List (StructField × Value))
    (hc : getJsonTag fieldType "jsonc" = some ctag) (hflat : ctag.Name = "flat")
    (hkind : fieldValue.Kind ≠ .Map) :
    mapFields ro m0 ((fieldType, fieldValue) :: post)
      = .error ("error: on collection " ++ fieldType.Name ++ ": " ++ "is not a map") := by
  simp only [mapFields, hc, hflat, if_true, insertReflectMapIntoMap_non_map _ _ _ hkind]

theorem strContains_append_middle (a b c d : String) : strContains (a ++ b ++ c ++ d) b := by
  refine ⟨a.data, c.data ++ d.data, ?_⟩
  simp [String.data_append]

theorem collectionItems_of_forall₂ (ro : Bool) (elems : List Value) (maps : List (GoMap Value))
    (h : List.Forall₂ (fun item mp => mapFromStruct ro item = .ok mp) elems maps) (i : Nat) :
    collectionItems ro i elems = .ok maps := by
  induction h generalizing i with
  | nil => simp [collectionItems]
  | cons hhead _ ih => simp [collectionItems, hhead, ih]

theorem exists_item_maps (ro : Bool) (elems : List Value)
    (h : ∀ item ∈ elems, ∃ mp, mapFromStruct ro item = .ok mp) :
    ∃ maps, List.Forall₂ (fun item mp => mapFromStruct ro item = .ok mp) elems maps := by
  induction elems with
  | nil => exact ⟨[], List.Forall₂.nil⟩
  | cons e es ih =>
    obtain ⟨mp, hmp⟩ := h e (List.mem_cons_self _ _)
    obtain ⟨maps, hmaps⟩ := ih (fun item hi => h item (List.mem_cons_of_mem _ hi))
    exact ⟨mp :: maps, List.Forall₂.cons hmp hmaps⟩

/-- A field that is neither ignored nor omitted is stored under its output key
by `insertTaggedFieldIntoMap`, when its value can be read. -/
theorem insertTaggedFieldIntoMap_kept (m : GoMap Value) (fieldType : StructField) (v x : Value)
    (hx : v.Interface false = some x)
    (hkept : ∀ tag, getJsonTag fieldType "json" = some tag →
      tag.Name ≠ "-" ∧ (tag.OmitEmpty = true → isEmptyValue v = false)) :
    insertTaggedFieldIntoMap m fieldType false v = some (GoMap.store m (outputKey fieldType) x) := by
  unfold insertTaggedFieldIntoMap outputKey
  cases ht : getJsonTag fieldType "json" with
  | none => simp [hx]
  | some tag =>
    obtain ⟨hname, hom⟩ := hkept tag ht
    simp only [hname, if_false]
    cases ho : tag.OmitEmpty with
    | false => simp [hx]
    | true => simp [hom ho, hx]

/-- C5, as the code has it: on an object whose `jsonc:"collection"` field is a
slice of N structs that each transform successfully, whose field is neither
ignored (json name `-`) nor omit-empty with N = 0, whose earlier fields are
processed without error and whose later fields are processed without error
and do not write the field's output key, `mapFromStruct` succeeds and the
output holds, under that key, a sequence of exactly N maps, the i-th being
`mapFromStruct` of the i-th element (N = 0 included, for the empty and for the
nil slice). -/
theorem mapFromStruct_collection_items (ro : Bool) (pre post : List (StructField × Value))
    (fieldType : StructField) (ctag : JsonTag) (fieldValue : Value) (elems : List Value)
    (m0 : GoMap Value)
    (hc : getJsonTag fieldType "jsonc" = some ctag) (hcoll : ctag.Name = "collection")
    (hslice : fieldValue = .slice elems ∨ (fieldValue = .nilSlice ∧ elems = []))
    (hitems : ∀ item ∈ elems, ∃ mp, mapFromStruct (ro || !fieldType.exported) item = .ok mp)
    (hkept : ∀ tag, getJsonTag fieldType "json" = some tag →
      tag.Name ≠ "-" ∧ (tag.OmitEmpty = true → elems ≠ []))
    (hpre : mapFields ro [] pre = .ok m0)
    (hpost : ∀ m1, ∃ m2, mapFields ro m1 post = .ok m2 ∧
      GoMap.lookup m2 (outputKey fieldType) = GoMap.lookup m1 (outputKey fieldType)) :
    ∃ m maps, mapFromStruct ro (.struct (pre ++ (fieldType, fieldValue) :: post)) = .ok m ∧
      GoMap.lookup m (outputKey fieldType) = some (.slice (maps.map Value.map)) ∧
      maps.length = elems.length ∧
      List.Forall₂ (fun item mp => mapFromStruct (ro || !fieldType.exported) item = .ok mp)
        elems maps := by
  obtain ⟨maps, hmaps⟩ := exists_item_maps _ elems hitems
  have hlen : maps.length = elems.length := hmaps.length_eq.symm
  have hflat : ¬ ("collection" = "flat") := by decide
  have hins : insertTaggedFieldIntoMap m0 fieldType false (sliceOfMaps maps)
      = some (GoMap.store m0 (outputKey fieldType) (sliceOfMaps maps)) := by
    apply insertTaggedFieldIntoMap_kept
    · rfl
    · intro tag ht
      obtain ⟨hname, hom⟩ := hkept tag ht
      refine ⟨hname, fun ho => ?_⟩
      have hne : maps ≠ [] := by
        intro hnil
        apply hom ho
        apply List.length_eq_zero.mp
        rw [← hlen, hnil]
        rfl
      cases maps with
      | nil => exact absurd rfl hne
      | cons mp rest => rfl
  have hstep : mapFields ro m0 [(fieldType, fieldValue)]
      = .ok (GoMap.store m0 (outputKey fieldType) (sliceOfMaps maps)) := by
    rcases hslice with hv | ⟨hv, hnil⟩
    · subst hv
      simp only [mapFields, hc, hflat, hcoll, if_true, if_false, handleCollection,
        collectionItems_of_forall₂ _ elems maps hmaps 0, hins]
    · subst hv
      subst hnil
      cases hmaps
      simp only [mapFields, hc, hflat, hcoll, if_true, if_false, handleCollection, hins]
  obtain ⟨m, hm, hkey⟩ := hpost (GoMap.store m0 (outputKey fieldType) (sliceOfMaps maps))
  refine ⟨m, maps, ?_, ?_, hlen, hmaps⟩
  · simp only [mapFromStruct]
    rw [mapFields_join ro pre post _ [] m0 _ hpre hstep]
    exact hm
  · rw [hkey, GoMap.lookup_store_same]
    rfl

/-- The statement of C5 on a struct with two items in its collection field,
between an `Id` and an `Owner` field. -/
theorem mapFromStruct_collection_items_witness :
    (getJsonTag itemsField "jsonc" = some ⟨"collection", false⟩ ∧
      (∀ item ∈ [itemStruct 1, itemStruct 2],
        ∃ mp, mapFromStruct (false || !itemsField.exported) item = .ok mp) ∧
      (∀ tag, getJsonTag itemsField "json" = some tag →
        tag.Name ≠ "-" ∧ (tag.OmitEmpty = true → [itemStruct 1, itemStruct 2] ≠ [])) ∧
      mapFields false [] [(jsonField "Id" "id" false, .str "a")] = .ok [("id", .str "a")] ∧
      (∀ m1, ∃ m2, mapFields false m1 [(plainField "Owner", .str "me")] = .ok m2 ∧
        GoMap.lookup m2 (outputKey itemsField) = GoMap.lookup m1 (outputKey itemsField))) ∧
    (∃ m maps, mapFromStruct false (.struct ([(jsonField "Id" "id" false, .str "a")] ++
        (itemsField, .slice [itemStruct 1, itemStruct 2]) :: [(plainField "Owner", .str "me")]))
        = .ok m ∧
      GoMap.lookup m (outputKey itemsField) = some (.slice (maps.map Value.map)) ∧
      maps.length = [itemStruct 1, itemStruct 2].length ∧
      List.Forall₂ (fun item mp => mapFromStruct (false || !itemsField.exported) item = .ok mp)
        [itemStruct 1, itemStruct 2] maps) :=
  have hitems : ∀ item ∈ [itemStruct 1, itemStruct 2],
      ∃ mp, mapFromStruct (false || !itemsField.exported) item = .ok mp := by
    intro item hi
    simp only [List.mem_cons, List.mem_singleton, List.not_mem_nil, or_false] at hi
    rcases hi with h | h <;> subst h <;> exact ⟨_, rfl⟩
  have hkept : ∀ tag, getJsonTag itemsField "json" = some tag →
      tag.Name ≠ "-" ∧ (tag.OmitEmpty = true → [itemStruct 1, itemStruct 2] ≠ []) := by
    intro tag ht
    have : tag = ⟨"items", true⟩ := by
      have h2 : getJsonTag itemsField "json" = some ⟨"items", true⟩ := rfl
      rw [h2] at ht
      exact (Option.some.inj ht).symm
    subst this
    exact ⟨by decide, fun _ => by simp⟩
  have hpost : ∀ m1, ∃ m2, mapFields false m1 [(plainField "Owner", .str "me")] = .ok m2 ∧
      GoMap.lookup m2 (outputKey itemsField) = GoMap.lookup m1 (outputKey itemsField) := by
    intro m1
    refine ⟨GoMap.store m1 "Owner" (.str "me"), rfl, ?_⟩
    exact GoMap.lookup_store_other _ _ _ _ (by decide)
  ⟨⟨rfl, hitems, hkept, rfl, hpost⟩,
    mapFromStruct_collection_items false [(jsonField "Id" "id" false, .str "a")]
      [(plainField "Owner", .str "me")] itemsField ⟨"collection", false⟩
      (.slice [itemStruct 1, itemStruct 2]) [itemStruct 1, itemStruct 2] [("id", .str "a")]
      rfl rfl (Or.inl rfl) hitems hkept rfl hpost⟩

/-- C5 as stated fails for N = 0: the collection field is an empty slice (all of
its zero elements transform), `mapFromStruct` succeeds, and the output has no
entry under the field's key `items`, because the field is omit-empty. -/
theorem mapFromStruct_collection_empty_omitted :
    getJsonTag itemsField "jsonc" = some ⟨"collection", false⟩ ∧
    outputKey itemsField = "items" ∧
    mapFromStruct false (.struct [(itemsField, .slice [])]) = .ok [] ∧
    GoMap.lookup ([] : GoMap Value) "items" = none :=
  ⟨rfl, rfl, rfl, rfl⟩

theorem flatEntries_lookup_other (ro : Bool) (entries : List (String × Value))
    (m m1 : GoMap Value) (k : String)
    (h : flatEntries ro m entries = some m1) (hk : k ∉ entries.map Prod.fst) :
    GoMap.lookup m1 k = GoMap.lookup m k := by
  induction entries generalizing m with
  | nil =>
    simp only [flatEntries, Option.some.injEq] at h
    rw [h]
  | cons e es ih =>
    obtain ⟨k0, v0⟩ := e
    simp only [List.map_cons, List.mem_cons, not_or] at hk
    simp only [flatEntries] at h
    cases hx : v0.Interface ro with
    | none => rw [hx] at h; cases h
    | some x =>
      rw [hx] at h
      rw [ih _ h hk.2]
      exact GoMap.lookup_store_other _ _ _ _ hk.1

theorem flatEntries_lookup_mem (ro : Bool) (entries : List (String × Value))
    (m m1 : GoMap Value) (k : String) (v : Value)
    (hnodup : (entries.map Prod.fst).Nodup)
    (h : flatEntries ro m entries = some m1) (hmem : (k, v) ∈ entries) :
    GoMap.lookup m1 k = v.Interface false := by
  induction entries generalizing m with
  | nil => cases hmem
  | cons e es ih =>
    obtain ⟨k0, v0⟩ := e
    simp only [List.map_cons, List.nodup_cons] at hnodup
    simp only [flatEntries] at h
    cases hx : v0.Interface ro with
    | none => rw [hx] at h; cases h
    | some x =>
      rw [hx] at h
      rcases List.mem_cons.mp hmem with heq | hrest
      · cases heq
        rw [flatEntries_lookup_other ro es _ m1 k h hnodup.1, GoMap.lookup_store_same]
        cases ro with
        | true => simp [Value.Interface] at hx
        | false => exact hx.symm
      · exact ih _ hnodup.2 h hrest

/-- C6, as the code has it: on an object on which `mapFromStruct` succeeds, with
a field tagged `jsonc:"flat"` that holds a string-keyed map (its keys pairwise
distinct, as the keys of a Go map are), the target map right after that field
holds `k -> v` for every entry `(k, v)` of the map, and
every key that is not a key of the map is as the earlier fields left it (the
field contributes no key of its own); the output holds `k -> v` for every entry
whose key no later field writes. -/
theorem mapFromStruct_flat_entries (ro : Bool) (pre post : List (StructField × Value))
    (fieldType : StructField) (ctag : JsonTag) (entries : List (String × Value))
    (m : GoMap Value)
    (hc : getJsonTag fieldType "jsonc" = some ctag) (hflat : ctag.Name = "flat")
    (hnodup : (entries.map Prod.fst).Nodup)
    (hok : mapFromStruct ro (.struct (pre ++ (fieldType, .map entries) :: post)) = .ok m) :
    ∃ m0 m1, mapFields ro [] pre = .ok m0 ∧ mapFields ro m1 post = .ok m ∧
      (∀ k v, (k, v) ∈ entries → GoMap.lookup m1 k = Value.Interface false v) ∧
      (∀ k, k ∉ entries.map Prod.fst → GoMap.lookup m1 k = GoMap.lookup m0 k) ∧
      (∀ k v, (k, v) ∈ entries →
        (∀ mA mB, mapFields ro mA post = .ok mB → GoMap.lookup mB k = GoMap.lookup mA k) →
        GoMap.lookup m k = Value.Interface false v) := by
  simp only [mapFromStruct] at hok
  obtain ⟨m0, m1, h0, h1, h2⟩ := mapFields_split ro pre post _ [] m hok
  have hfe : flatEntries (ro || !fieldType.exported) m0 entries = some m1 := by
    simp only [mapFields, hc, hflat, if_true, insertReflectMapIntoMap] at h1
    cases hf : flatEntries (ro || !fieldType.exported) m0 entries with
    | none => rw [hf] at h1; cases h1
    | some mx =>
      rw [hf] at h1
      simp only [Outcome.ok.injEq] at h1
      rw [h1]
  have hmem : ∀ k v, (k, v) ∈ entries → GoMap.lookup m1 k = Value.Interface false v :=
    fun k v hkv => flatEntries_lookup_mem _ entries m0 m1 k v hnodup hfe hkv
  refine ⟨m0, m1, h0, h2, hmem, ?_, ?_⟩
  · intro k hk
    exact flatEntries_lookup_other _ entries m0 m1 k hfe hk
  · intro k v hkv hframe
    rw [hframe m1 m h2]
    exact hmem k v hkv

/-- The statement of C6 on a struct with an `Id`, a flattened `Extra` of two
entries and an `Owner`. -/
theorem mapFromStruct_flat_entries_witness :
    (getJsonTag extraField "jsonc" = some ⟨"flat", false⟩ ∧
      (⟨"flat", false⟩ : JsonTag).Name = "flat" ∧
      ([("c8y_IsDevice", Value.iface (.bool true)), ("name", Value.iface (.str "d"))].map
        Prod.fst).Nodup ∧
      mapFromStruct false (.struct ([(jsonField "Id" "id" false, .str "a")] ++
        (extraField, .map [("c8y_IsDevice", .iface (.bool true)), ("name", .iface (.str "d"))])
          :: [(plainField "Owner", .str "me")]))
        = .ok [("id", .str "a"), ("c8y_IsDevice", .bool true), ("name", .str "d"),
            ("Owner", .str "me")]) ∧
    (∃ m0 m1, mapFields false [] [(jsonField "Id" "id" false, .str "a")] = .ok m0 ∧
      mapFields false m1 [(plainField "Owner", .str "me")]
        = .ok [("id", .str "a"), ("c8y_IsDevice", .bool true), ("name", .str "d"),
            ("Owner", .str "me")] ∧
      (∀ k v, (k, v) ∈ [("c8y_IsDevice", Value.iface (.bool true)), ("name", Value.iface (.str "d"))]
        → GoMap.lookup m1 k = Value.Interface false v) ∧
      (∀ k, k ∉ [("c8y_IsDevice", Value.iface (.bool true)), ("name", Value.iface (.str "d"))].map
        Prod.fst → GoMap.lookup m1 k = GoMap.lookup m0 k) ∧
      (∀ k v, (k, v) ∈ [("c8y_IsDevice", Value.iface (.bool true)), ("name", Value.iface (.str "d"))]
        → (∀ mA mB, mapFields false mA [(plainField "Owner", .str "me")] = .ok mB →
            GoMap.lookup mB k = GoMap.lookup mA k) →
        GoMap.lookup [("id", Value.str "a"), ("c8y_IsDevice", Value.bool true),
            ("name", Value.str "d"), ("Owner", Value.str "me")] k = Value.Interface false v)) :=
  ⟨⟨rfl, rfl, by decide, rfl⟩,
    mapFromStruct_flat_entries false [(jsonField "Id" "id" false, .str "a")]
      [(plainField "Owner", .str "me")] extraField ⟨"flat", false⟩
      [("c8y_IsDevice", .iface (.bool true)), ("name", .iface (.str "d"))]
      [("id", .str "a"), ("c8y_IsDevice", .bool true), ("name", .str "d"), ("Owner", .str "me")]
      rfl rfl (by decide) rfl⟩

/-- C6 as stated fails: `Extra` is flattened and holds the entry `Owner -> 1`,
`mapFromStruct` succeeds, and the output holds `Owner -> "me"`, written by the
later field `Owner`, not the entry of the map. -/
theorem mapFromStruct_flat_entry_overwritten :
    getJsonTag extraField "jsonc" = some ⟨"flat", false⟩ ∧
    mapFromStruct false (.struct
      [(extraField, .map [("Owner", .iface (.int 1))]), (plainField "Owner", .str "me")])
      = .ok [("Owner", .str "me")] ∧
    GoMap.lookup [("Owner", Value.str "me")] "Owner" = some (.str "me") ∧
    Value.Interface false (.iface (.int 1)) = some (.int 1) :=
  ⟨rfl, rfl, rfl, rfl⟩

theorem getJsonTag_jsonc_unrecognized (fieldType : StructField) (tag : JsonTag)
    (htag : fieldType.jsoncTag = some tag) (hflat : tag.Name ≠ "flat")
    (hcoll : tag.Name ≠ "collection") : getJsonTag fieldType "jsonc" = none := by
  have hkey : ¬ ("jsonc" = "json") := by decide
  simp only [getJsonTag, hkey, if_false, if_true, htag, hflat, hcoll, or_self]

/-- A field that resolves to no structural directive is handed to
`insertTaggedFieldIntoMap`, which returns no error. -/
theorem mapFields_no_directive (ro : Bool) (m : GoMap Value) (fieldType : StructField)
    (fieldValue : Value) (rest : List (StructField × Value))
    (hc : getJsonTag fieldType "jsonc" = none) :
    mapFields ro m ((fieldType, fieldValue) :: rest)
      = match insertTaggedFieldIntoMap m fieldType (ro || !fieldType.exported) fieldValue with
        | none => .panic
        | some m1 => mapFields ro m1 rest := by
  simp only [mapFields, hc]

/-- The loop does not tell two fields apart that are processed alike. -/
theorem mapFields_congr_field (ro : Bool) (pre post : List (StructField × Value))
    (f g : StructField × Value) (m0 : GoMap Value)
    (h : ∀ m, mapFields ro m [f] = mapFields ro m [g]) :
    mapFields ro m0 (pre ++ f :: post) = mapFields ro m0 (pre ++ g :: post) := by
  rw [mapFields_append, mapFields_append]
  cases mapFields ro m0 pre with
  | ok m1 =>
    simp only [Outcome.bind]
    rw [mapFields_cons, mapFields_cons ro m1 g post, h m1]
  | error msg => rfl
  | panic => rfl

/-- C7: a field whose `jsonc` tag is present with a value other than `flat` or
`collection` is transformed exactly as if it had no `jsonc` tag at all: for
every structured object `mapFromStruct` yields the same result as on the
object whose field has no `jsonc` tag, the field is handled by
`insertTaggedFieldIntoMap` alone (json name or Go name, ignore and omit-empty
rules), and no error comes from that field. -/
theorem mapFromStruct_unknown_directive_as_untagged (ro : Bool)
    (pre post : List (StructField × Value)) (fieldType : StructField) (tag : JsonTag)
    (fieldValue : Value)
    (htag : fieldType.jsoncTag = some tag) (hflat : tag.Name ≠ "flat")
    (hcoll : tag.Name ≠ "collection") :
    mapFromStruct ro (.struct (pre ++ (fieldType, fieldValue) :: post))
      = mapFromStruct ro (.struct (pre ++
          (⟨fieldType.Name, fieldType.exported, fieldType.jsonTag, none⟩, fieldValue) :: post)) ∧
    (∀ m, mapFields ro m [(fieldType, fieldValue)]
      = match insertTaggedFieldIntoMap m fieldType (ro || !fieldType.exported) fieldValue with
        | none => .panic
        | some m1 => .ok m1) ∧
    (∀ m msg, mapFields ro m [(fieldType, fieldValue)] ≠ .error msg) := by
  have hc := getJsonTag_jsonc_unrecognized fieldType tag htag hflat hcoll
  have hstep : ∀ m, mapFields ro m [(fieldType, fieldValue)]
      = match insertTaggedFieldIntoMap m fieldType (ro || !fieldType.exported) fieldValue with
        | none => .panic
        | some m1 => .ok m1 := by
    intro m
    rw [mapFields_no_directive ro m fieldType fieldValue [] hc]
    cases insertTaggedFieldIntoMap m fieldType (ro || !fieldType.exported) fieldValue <;>
      simp only [mapFields]
  have hc2 : getJsonTag ⟨fieldType.Name, fieldType.exported, fieldType.jsonTag, none⟩ "jsonc"
      = none := rfl
  have hins : ∀ m r, insertTaggedFieldIntoMap m
      ⟨fieldType.Name, fieldType.exported, fieldType.jsonTag, none⟩ r fieldValue
      = insertTaggedFieldIntoMap m fieldType r fieldValue := fun _ _ => rfl
  refine ⟨?_, hstep, ?_⟩
  · simp only [mapFromStruct]
    apply mapFields_congr_field
    intro m
    rw [hstep m, mapFields_no_directive ro m _ fieldValue [] hc2, hins]
    cases insertTaggedFieldIntoMap m fieldType (ro || !fieldType.exported) fieldValue <;>
      simp only [mapFields]
  · intro m msg h
    rw [hstep m] at h
    cases hi : insertTaggedFieldIntoMap m fieldType (ro || !fieldType.exported) fieldValue with
    | none => rw [hi] at h; cases h
    | some m1 => rw [hi] at h; cases h

/-- The statement of C7 on a struct whose field `A` is tagged `jsonc:"inline"`,
between an `Id` and an `Owner` field. -/
theorem mapFromStruct_unknown_directive_as_untagged_witness :
    ((⟨"A", true, none, some ⟨"inline", false⟩⟩ : StructField).jsoncTag
        = some ⟨"inline", false⟩ ∧
      (⟨"inline", false⟩ : JsonTag).Name ≠ "flat" ∧
      (⟨"inline", false⟩ : JsonTag).Name ≠ "collection") ∧
    mapFromStruct false (.struct ([(jsonField "Id" "id" false, .str "a")] ++
        (⟨"A", true, none, some ⟨"inline", false⟩⟩, .str "x") ::
          [(plainField "Owner", .str "me")]))
      = .ok [("id", .str "a"), ("A", .str "x"), ("Owner", .str "me")] ∧
    (mapFromStruct false (.struct ([(jsonField "Id" "id" false, .str "a")] ++
        (⟨"A", true, none, some ⟨"inline", false⟩⟩, .str "x") ::
          [(plainField "Owner", .str "me")]))
      = mapFromStruct false (.struct ([(jsonField "Id" "id" false, .str "a")] ++
          (⟨(⟨"A", true, none, some ⟨"inline", false⟩⟩ : StructField).Name,
            (⟨"A", true, none, some ⟨"inline", false⟩⟩ : StructField).exported,
            (⟨"A", true, none, some ⟨"inline", false⟩⟩ : StructField).jsonTag, none⟩, .str "x")
            :: [(plainField "Owner", .str "me")])) ∧
    (∀ m, mapFields false m [(⟨"A", true, none, some ⟨"inline", false⟩⟩, .str "x")]
      = match insertTaggedFieldIntoMap m ⟨"A", true, none, some ⟨"inline", false⟩⟩
          (false || !(⟨"A", true, none, some ⟨"inline", false⟩⟩ : StructField).exported)
          (.str "x") with
        | none => .panic
        | some m1 => .ok m1) ∧
    (∀ m msg,
      mapFields false m [(⟨"A", true, none, some ⟨"inline", false⟩⟩, .str "x")] ≠ .error msg)) :=
  ⟨⟨rfl, by decide, by decide⟩, rfl,
    mapFromStruct_unknown_directive_as_untagged false [(jsonField "Id" "id" false, .str "a")]
      [(plainField "Owner", .str "me")] ⟨"A", true, none, some ⟨"inline", false⟩⟩
      ⟨"inline", false⟩ (.str "x") rfl (by decide) (by decide)⟩

/-! ## The resource clients -/

/-- C8: for every non-empty id, when the transport answers the request of
`Get` with status 404 and no transport error, `Get` of the device registration
client returns `(nil, nil)`, whatever the body; `Get` of the events client
returns `(nil, nil)` on a 404 as well. Both issue exactly one request. -/
theorem Get_not_found_returns_nil_nil (api : deviceRegistrationApi) (deviceId : String)
    {Ev CEv UEv Tm : Type} (e : events Ev CEv UEv Tm) (eventId : String)
    (hid : deviceId ≠ "")
    (hdev : ∀ req ∈ (api.Get deviceId).requests,
      (api.client req).status = StatusNotFound ∧ (api.client req).err = none)
    (hev : ∀ req ∈ (e.Get eventId).requests, (e.client req).status = StatusNotFound) :
    ((api.Get deviceId).requests.length = 1 ∧ (api.Get deviceId).result = (none, none)) ∧
    ((e.Get eventId).requests.length = 1 ∧ (e.Get eventId).result = (none, none)) := by
  have hlen : ¬ goLen deviceId = 0 := fun h => hid ((goLen_eq_zero_iff deviceId).mp h)
  constructor
  · simp only [deviceRegistrationApi.Get, hlen, if_false] at hdev ⊢
    obtain ⟨hs, he⟩ := hdev _ (List.mem_singleton_self _)
    refine ⟨rfl, ?_⟩
    simp only [he, hs, if_true]
  · simp only [events.Get] at hev ⊢
    have hs := hev _ (List.mem_singleton_self _)
    refine ⟨rfl, ?_⟩
    have hne : (404 : Int) ≠ 200 := by decide
    simp only [hs, StatusNotFound, StatusOK, ne_eq, hne, not_false_eq_true, if_true]

/-- The statement of C8 for the id `missing`, on a transport that answers every
request with status 404 and a body. -/
theorem Get_not_found_returns_nil_nil_witness :
    ("missing" ≠ "" ∧
      (∀ req ∈ ((exampleDeviceApi (fun _ => ⟨"Not Found", 404, none⟩)).Get "missing").requests,
        ((exampleDeviceApi (fun _ => ⟨"Not Found", 404, none⟩)).client req).status
            = StatusNotFound ∧
          ((exampleDeviceApi (fun _ => ⟨"Not Found", 404, none⟩)).client req).err = none) ∧
      (∀ req ∈ ((exampleEvents (fun _ => ⟨"Not Found", 404, none⟩)).Get "missing").requests,
        ((exampleEvents (fun _ => ⟨"Not Found", 404, none⟩)).client req).status
          = StatusNotFound)) ∧
    ((((exampleDeviceApi (fun _ => ⟨"Not Found", 404, none⟩)).Get "missing").requests.length = 1 ∧
      ((exampleDeviceApi (fun _ => ⟨"Not Found", 404, none⟩)).Get "missing").result
        = (none, none)) ∧
    (((exampleEvents (fun _ => ⟨"Not Found", 404, none⟩)).Get "missing").requests.length = 1 ∧
      ((exampleEvents (fun _ => ⟨"Not Found", 404, none⟩)).Get "missing").result
        = (none, none))) :=
  ⟨⟨by decide, fun _ _ => ⟨rfl, rfl⟩, fun _ _ => rfl⟩,
    Get_not_found_returns_nil_nil (exampleDeviceApi (fun _ => ⟨"Not Found", 404, none⟩)) "missing"
      (exampleEvents (fun _ => ⟨"Not Found", 404, none⟩)) "missing"
      (by decide) (fun _ _ => ⟨rfl, rfl⟩) (fun _ _ => rfl)⟩

/-- C9 fails on the code: on a response with status 500 and an error body, `Get`
of the events client returns `(nil, nil)`, no error at all, where `Get` of the
device registration client returns the error parsed from the body. -/
theorem events_Get_status_500_returns_nil_nil :
    ((exampleEvents (fun _ => ⟨exampleErrorBody, 500, none⟩)).Get "4711").result
      = (none, none) ∧
    ((exampleDeviceApi (fun _ => ⟨exampleErrorBody, 500, none⟩)).Get "4711").result
      = (none, some (.server "undefined" "boom" 500)) :=
  ⟨rfl, rfl⟩

/-- C10 fails on the code: following a next link that the server answers with
status 200 and a page without elements, `NextPage` and `PreviousPage` of the
events client return the empty collection, where those of the device
registration client return `(nil, nil)`. -/
theorem events_NextPage_empty_page_returns_collection :
    ((exampleEvents (fun _ => ⟨exampleEmptyEvents, 200, none⟩)).NextPage
        ⟨examplePageLink, "", ["4711"]⟩).result
      = (some ⟨"", "", []⟩, none) ∧
    ((exampleEvents (fun _ => ⟨exampleEmptyEvents, 200, none⟩)).PreviousPage
        ⟨"", examplePageLink, ["4711"]⟩).result
      = (some ⟨"", "", []⟩, none) ∧
    ((exampleDeviceApi (fun _ => ⟨exampleEmptyRegistrations, 200, none⟩)).NextPage
        ⟨examplePageLink, "", [⟨"abc123", ""⟩]⟩).result
      = (none, none) ∧
    ((exampleDeviceApi (fun _ => ⟨exampleEmptyRegistrations, 200, none⟩)).PreviousPage
        ⟨"", examplePageLink, [⟨"abc123", ""⟩]⟩).result
      = (none, none) :=
  ⟨rfl, rfl, rfl, rfl⟩

/-- C11: for each resource kind, `NextPage` on a collection whose `Next` link is
the empty string, and `PreviousPage` on a collection whose `Prev` link is the
empty string, return `(nil, nil)`, no page and no error, and hand no request
to the HTTP client. -/
theorem NextPage_empty_link_returns_nil_nil (api : deviceRegistrationApi)
    (cn cp : DeviceRegistrationCollection) {Ev CEv UEv Tm : Type} (e : events Ev CEv UEv Tm)
    (en ep : EventCollection Ev)
    (hcn : cn.Next = "") (hcp : cp.Prev = "") (hen : en.Next = "") (hep : ep.Prev = "") :
    ((api.NextPage cn).result = (none, none) ∧ (api.NextPage cn).requests = []) ∧
    ((api.PreviousPage cp).result = (none, none) ∧ (api.PreviousPage cp).requests = []) ∧
    ((e.NextPage en).result = (none, none) ∧ (e.NextPage en).requests = []) ∧
    ((e.PreviousPage ep).result = (none, none) ∧ (e.PreviousPage ep).requests = []) := by
  refine ⟨?_, ?_, ?_, ?_⟩
  · simp only [deviceRegistrationApi.NextPage, deviceRegistrationApi.getPage, hcn, if_true,
      and_self]
  · simp only [deviceRegistrationApi.PreviousPage, deviceRegistrationApi.getPage, hcp, if_true,
      and_self]
  · simp only [events.NextPage, events.getPage, hen, if_true, and_self]
  · simp only [events.PreviousPage, events.getPage, hep, if_true, and_self]

/-- The statement of C11 on last and first pages of both kinds, over a transport
that would answer every request with a server error. -/
theorem NextPage_empty_link_returns_nil_nil_witness :
    ((⟨"", examplePageLink, [⟨"abc123", ""⟩]⟩ : DeviceRegistrationCollection).Next = "" ∧
      (⟨examplePageLink, "", [⟨"abc123", ""⟩]⟩ : DeviceRegistrationCollection).Prev = "" ∧
      (⟨"", examplePageLink, ["4711"]⟩ : EventCollection String).Next = "" ∧
      (⟨examplePageLink, "", ["4711"]⟩ : EventCollection String).Prev = "") ∧
    ((((exampleDeviceApi (fun _ => ⟨exampleErrorBody, 500, none⟩)).NextPage
          ⟨"", examplePageLink, [⟨"abc123", ""⟩]⟩).result = (none, none) ∧
        ((exampleDeviceApi (fun _ => ⟨exampleErrorBody, 500, none⟩)).NextPage
          ⟨"", examplePageLink, [⟨"abc123", ""⟩]⟩).requests = []) ∧
      (((exampleDeviceApi (fun _ => ⟨exampleErrorBody, 500, none⟩)).PreviousPage
          ⟨examplePageLink, "", [⟨"abc123", ""⟩]⟩).result = (none, none) ∧
        ((exampleDeviceApi (fun _ => ⟨exampleErrorBody, 500, none⟩)).PreviousPage
          ⟨examplePageLink, "", [⟨"abc123", ""⟩]⟩).requests = []) ∧
      (((exampleEvents (fun _ => ⟨exampleErrorBody, 500, none⟩)).NextPage
          ⟨"", examplePageLink, ["4711"]⟩).result = (none, none) ∧
        ((exampleEvents (fun _ => ⟨exampleErrorBody, 500, none⟩)).NextPage
          ⟨"", examplePageLink, ["4711"]⟩).requests = []) ∧
      (((exampleEvents (fun _ => ⟨exampleErrorBody, 500, none⟩)).PreviousPage
          ⟨examplePageLink, "", ["4711"]⟩).result = (none, none) ∧
        ((exampleEvents (fun _ => ⟨exampleErrorBody, 500, none⟩)).PreviousPage
          ⟨examplePageLink, "", ["4711"]⟩).requests = [])) :=
  ⟨⟨rfl, rfl, rfl, rfl⟩,
    NextPage_empty_link_returns_nil_nil
      (exampleDeviceApi (fun _ => ⟨exampleErrorBody, 500, none⟩))
      ⟨"", examplePageLink, [⟨"abc123", ""⟩]⟩ ⟨examplePageLink, "", [⟨"abc123", ""⟩]⟩
      (exampleEvents (fun _ => ⟨exampleErrorBody, 500, none⟩))
      ⟨"", examplePageLink, ["4711"]⟩ ⟨examplePageLink, "", ["4711"]⟩ rfl rfl rfl rfl⟩

/-! ## generic/jsonc_marshal.go: the rule of `insertTaggedFieldIntoMap` -/

theorem Value.Interface_readable (v : Value) : ∃ x, v.Interface false = some x := by
  cases v <;> exact ⟨_, rfl⟩

/-- The insertion rule on a field value that reflection may read (not reached
through an unexported field): `insertTaggedFieldIntoMap` (a) with no `json`
tag sets the key of the field's Go name to the value, empty or not, (d) with a
`json` tag whose name is not `-`, unless omit-empty is set and the value is
empty, sets the key of the json name to the value, and in both cases every
other key keeps its binding; (b) with json name `-` and (c) with omit-empty
set and an empty value it leaves the map as it is, whatever the read-only
flag. -/
theorem insertTaggedFieldIntoMap_rule (targetMap : GoMap Value) (fieldType : StructField)
    (fieldValue : Value) :
    (∃ x, fieldValue.Interface false = some x) ∧
    (getJsonTag fieldType "json" = none →
      ∃ m, insertTaggedFieldIntoMap targetMap fieldType false fieldValue = some m ∧
        GoMap.lookup m fieldType.Name = fieldValue.Interface false ∧
        ∀ k, k ≠ fieldType.Name → GoMap.lookup m k = GoMap.lookup targetMap k) ∧
    (∀ tag ro, getJsonTag fieldType "json" = some tag → tag.Name = "-" →
      insertTaggedFieldIntoMap targetMap fieldType ro fieldValue = some targetMap) ∧
    (∀ tag ro, getJsonTag fieldType "json" = some tag → tag.OmitEmpty = true →
      isEmptyValue fieldValue = true →
      insertTaggedFieldIntoMap targetMap fieldType ro fieldValue = some targetMap) ∧
    (∀ tag, getJsonTag fieldType "json" = some tag → tag.Name ≠ "-" →
      ¬ (tag.OmitEmpty = true ∧ isEmptyValue fieldValue = true) →
      ∃ m, insertTaggedFieldIntoMap targetMap fieldType false fieldValue = some m ∧
        GoMap.lookup m tag.Name = fieldValue.Interface false ∧
        ∀ k, k ≠ tag.Name → GoMap.lookup m k = GoMap.lookup targetMap k) := by
  obtain ⟨x, hx⟩ := Value.Interface_readable fieldValue
  refine ⟨⟨x, hx⟩, ?_, ?_, ?_, ?_⟩
  · intro ht
    refine ⟨GoMap.store targetMap fieldType.Name x, ?_, ?_, ?_⟩
    · simp only [insertTaggedFieldIntoMap, ht, hx, Option.map_some']
    · rw [hx]; exact GoMap.lookup_store_same _ _ _
    · intro k hk; exact GoMap.lookup_store_other _ _ _ _ hk
  · intro tag ro ht hname
    simp only [insertTaggedFieldIntoMap, ht, hname, if_true]
  · intro tag ro ht homit hempty
    exact insertTaggedFieldIntoMap_omitted targetMap fieldType tag ro fieldValue ht homit hempty
  · intro tag ht hname hkeep
    have hcond : (tag.OmitEmpty && isEmptyValue fieldValue) = false := by
      cases ho : tag.OmitEmpty with
      | false => rfl
      | true =>
        cases he : isEmptyValue fieldValue with
        | false => rfl
        | true => exact absurd ⟨ho, he⟩ hkeep
    refine ⟨GoMap.store targetMap tag.Name x, ?_, ?_, ?_⟩
    · simp only [insertTaggedFieldIntoMap, ht, hname, if_false, hcond, Bool.false_eq_true, hx,
        Option.map_some']
    · rw [hx]; exact GoMap.lookup_store_same _ _ _
    · intro k hk; exact GoMap.lookup_store_other _ _ _ _ hk

/-- The insertion rule on a target map that holds `id`: an untagged field with
an empty value is set, a field named `-` and an empty omit-empty field leave
the map as it is, a filled omit-empty field is set under its json name. -/
theorem insertTaggedFieldIntoMap_rule_witness :
    (getJsonTag (plainField "Name") "json" = none ∧
      ∃ m, insertTaggedFieldIntoMap [("id", .str "a")] (plainField "Name") false (.str "")
          = some m ∧
        GoMap.lookup m (plainField "Name").Name = (Value.str "").Interface false ∧
        ∀ k, k ≠ (plainField "Name").Name →
          GoMap.lookup m k = GoMap.lookup [("id", Value.str "a")] k) ∧
    ((getJsonTag (jsonField "Secret" "-" false) "json" = some ⟨"-", false⟩ ∧
        (⟨"-", false⟩ : JsonTag).Name = "-") ∧
      insertTaggedFieldIntoMap [("id", .str "a")] (jsonField "Secret" "-" false) false (.str "x")
        = some [("id", .str "a")]) ∧
    ((getJsonTag (jsonField "Status" "status" true) "json" = some ⟨"status", true⟩ ∧
        (⟨"status", true⟩ : JsonTag).OmitEmpty = true ∧ isEmptyValue (.str "") = true) ∧
      insertTaggedFieldIntoMap [("id", .str "a")] (jsonField "Status" "status" true) false
        (.str "") = some [("id", .str "a")]) ∧
    ((getJsonTag (jsonField "Status" "status" true) "json" = some ⟨"status", true⟩ ∧
        (⟨"status", true⟩ : JsonTag).Name ≠ "-" ∧
        ¬ ((⟨"status", true⟩ : JsonTag).OmitEmpty = true ∧ isEmptyValue (.str "x") = true)) ∧
      ∃ m, insertTaggedFieldIntoMap [("id", .str "a")] (jsonField "Status" "status" true) false
          (.str "x") = some m ∧
        GoMap.lookup m (⟨"status", true⟩ : JsonTag).Name = (Value.str "x").Interface false ∧
        ∀ k, k ≠ (⟨"status", true⟩ : JsonTag).Name →
          GoMap.lookup m k = GoMap.lookup [("id", Value.str "a")] k) :=
  ⟨⟨rfl, (insertTaggedFieldIntoMap_rule [("id", .str "a")] (plainField "Name") (.str "")).2.1 rfl⟩,
    ⟨⟨rfl, rfl⟩,
      (insertTaggedFieldIntoMap_rule [("id", .str "a")] (jsonField "Secret" "-" false)
        (.str "x")).2.2.1 ⟨"-", false⟩ false rfl rfl⟩,
    ⟨⟨rfl, rfl, rfl⟩,
      (insertTaggedFieldIntoMap_rule [("id", .str "a")] (jsonField "Status" "status" true)
        (.str "")).2.2.2.1 ⟨"status", true⟩ false rfl rfl rfl⟩,
    ⟨⟨rfl, by decide, by decide⟩,
      (insertTaggedFieldIntoMap_rule [("id", .str "a")] (jsonField "Status" "status" true)
        (.str "x")).2.2.2.2 ⟨"status", true⟩ rfl (by decide) (by decide)⟩⟩

/-- C12 fails on the code: for the unexported field `secret` without a `json`
tag, whose value carries the read-only flag, `insertTaggedFieldIntoMap` panics
in the unguarded `fieldValue.Interface()` where the claim, and the comment of
the function, have it set the key `secret`; `mapFromStruct` reaches that call
on a struct with such a field and panics, returning neither map nor error. -/
theorem insertTaggedFieldIntoMap_unexported_panics :
    getJsonTag ⟨"secret", false, none, none⟩ "json" = none ∧
    insertTaggedFieldIntoMap [] ⟨"secret", false, none, none⟩ true (.str "x") = none ∧
    mapFromStruct false (.struct [(⟨"secret", false, none, none⟩, .str "x")]) = .panic :=
  ⟨rfl, rfl, rfl⟩

end Gomulocity
